import Mathlib

/-!
# AliMuonTrackCuts: parameter resolution and selection mask

A shallow embedding of `PWG/muon/AliMuonTrackCuts.cxx`.

* `Double_t` values that enter arithmetic are elements of an arbitrary linearly
  ordered field `F` (exact arithmetic); the square root used by `TMath::Sqrt` is
  passed as a function `sqrt : F → F`.
* The transverse momentum and the sharp pt thresholds, which only enter the
  comparisons `pt < cut` and `pt >= cut`, are values of `Dbl F`: a number of `F`
  or NaN, every comparison with NaN being false.
* `Int_t` values are `Int`, `UInt_t` bit masks are `Nat`.
* `AliFatal` aborts the program: functions that can reach it return
  `Except Fatal _`.
* Objects of classes that live outside the file (tracks, OADB containers,
  keys of the OADB file, the event handler) are records of the values the
  file reads from them.
-/

namespace MuonCuts

/-! ## Collaborators read by the file -/

/-- A `Double_t` that only enters comparisons: a number of `F` or NaN. Infinite values
compare like numbers and are not told apart from them. -/
inductive Dbl (F : Type) where
  | num (x : F)
  | nan

/-- The comparison `a < b` of two doubles: false as soon as one side is NaN. -/
def Dbl.lt {F : Type} [LT F] : Dbl F → Dbl F → Prop
  | Dbl.num a, Dbl.num b => a < b
  | _, _ => False

/-- The comparison `a >= b` of two doubles: false as soon as one side is NaN. -/
def Dbl.ge {F : Type} [LE F] : Dbl F → Dbl F → Prop
  | Dbl.num a, Dbl.num b => b ≤ a
  | _, _ => False

instance {F : Type} [LT F] : LT (Dbl F) := ⟨Dbl.lt⟩

instance {F : Type} [LE F] : LE (Dbl F) := ⟨fun a b => Dbl.ge b a⟩

instance {F : Type} [LinearOrder F] (a b : Dbl F) : Decidable (a < b) :=
  match a, b with
  | Dbl.num x, Dbl.num y => inferInstanceAs (Decidable (x < y))
  | Dbl.num _, Dbl.nan => isFalse (fun h => h)
  | Dbl.nan, Dbl.num _ => isFalse (fun h => h)
  | Dbl.nan, Dbl.nan => isFalse (fun h => h)

instance {F : Type} [LinearOrder F] (a b : Dbl F) : Decidable (a ≤ b) :=
  match a, b with
  | Dbl.num x, Dbl.num y => inferInstanceAs (Decidable (x ≤ y))
  | Dbl.num _, Dbl.nan => isFalse (fun h => h)
  | Dbl.nan, Dbl.num _ => isFalse (fun h => h)
  | Dbl.nan, Dbl.nan => isFalse (fun h => h)

/-- ROOT three-vector (only the components are stored). -/
structure TVector3 (F : Type) where
  x : F
  y : F
  z : F

/-- Componentwise difference, `TVector3::operator-`. -/
def TVector3.sub {F : Type} [LinearOrderedField F] (a b : TVector3 F) : TVector3 F :=
  { x := a.x - b.x, y := a.y - b.y, z := a.z - b.z }

/-- Euclidean norm, `TVector3::Mag`, over the supplied square root. -/
def TVector3.Mag {F : Type} [LinearOrderedField F] (sqrt : F → F) (a : TVector3 F) : F :=
  sqrt (a.x * a.x + a.y * a.y + a.z * a.z)

/-- Observables of a track, as returned by `AliVParticle` and by the
`AliAnalysisMuonUtility` accessors called in the file. -/
structure AliVParticle (F : Type) where
  IsMuonTrack : Bool
  Eta : F
  GetThetaAbsDeg : F
  GetMatchTrigger : Int
  Pt : Dbl F
  P : F
  GetChi2perNDFtracker : F
  GetXatVertex : F
  GetYatVertex : F
  GetZatVertex : F
  GetXatDCA : F
  GetYatDCA : F
  GetZatDCA : F
  IsAODTrack : Bool
  PUncorrected : F

/-- One calibration parameter set, `AliOADBMuonTrackCutsParam`; the fields are
named after the getters the file calls. -/
structure AliOADBMuonTrackCutsParam (F : Type) where
  GetName : String
  GetMeanDCA : TVector3 F
  GetSigmaPdca23 : F
  GetSigmaPdca310 : F
  GetMeanPCorr23 : F
  GetMeanPCorr310 : F
  GetNSigmaPdca : F
  GetRelPResolution : F
  GetSlopeResolution : F
  GetChi2NormCut : F
  fSharpPtApt : Dbl F
  fSharpPtLpt : Dbl F
  fSharpPtHpt : Dbl F

/-- Modelled from the spec: the accessor `AliOADBMuonTrackCutsParam::GetSharpPtCut`
is declared outside the file; the spec describes `sharpPtCut[3]`, one threshold per
trigger-match level, indexed from 0. An index outside 0..2 yields 0 here. -/
def AliOADBMuonTrackCutsParam.GetSharpPtCut {F : Type} [LinearOrderedField F]
    (p : AliOADBMuonTrackCutsParam F) (trigPtCut : Int) : Dbl F :=
  if trigPtCut = 0 then p.fSharpPtApt
  else if trigPtCut = 1 then p.fSharpPtLpt
  else if trigPtCut = 2 then p.fSharpPtHpt
  else Dbl.num 0

/-- The two `AliOADBContainer` lookups the file performs: `GetObject run`
stands for `GetObject(runNumber, "default")` and `GetDefaultObject name` for the
lookup in the list of default objects (`none` is the null pointer). -/
structure AliOADBContainer (F : Type) where
  GetObject : Int → AliOADBMuonTrackCutsParam F
  GetDefaultObject : String → Option (AliOADBMuonTrackCutsParam F)

/-- One key of the OADB file: `currPass` is
`AliAnalysisMuonUtility::GetPassNumber(key->GetName())`, `container` is
`file->Get(key->GetName())`. -/
structure OADBKey (F : Type) where
  GetName : String
  currPass : Int
  container : AliOADBContainer F

/-- The OADB storage: `file isMC` is the result of `TFile::Open` on
`MuonTrackCuts.root` (`isMC = false`) or `MuonTrackCuts_MC.root` (`isMC = true`),
`none` when the file cannot be opened, otherwise its list of keys in iteration order. -/
structure OADB (F : Type) where
  file : Bool → Option (List (OADBKey F))

/-- What `SetRun` reads from the event handler: the run number of the event and
the pass number `AliAnalysisMuonUtility::GetPassNumber(eventHandler)` guesses
from the path. -/
structure AliInputEventHandler where
  GetRunNumber : Int
  GetPassNumber : Int

/-! ## The class -/

/-- Data members of `AliMuonTrackCuts`; `fFilterMask` is the member of the base
class `AliAnalysisCuts` behind `GetFilterMask` / `SetFilterMask`. -/
structure AliMuonTrackCuts (F : Type) where
  fFilterMask : Nat
  fIsMC : Bool
  fUseCustomParam : Bool
  fSharpPtCut : Bool
  fAllowDefaultParams : Bool
  fPassNumber : Int
  fOADBParam : AliOADBMuonTrackCutsParam F

/-- The five `AliFatal` calls of `ReadParamFromOADB`. -/
inductive Fatal where
  | passNotSpecified
  | fileNotFound
  | passNotFound
  | noParameterFound
  | runNotFound
  deriving DecidableEq

/-- Diagnostics emitted by the file (`AliInfo`, `AliWarning`, `AliError`). -/
inductive LogMsg where
  | fallbackWarning (runNumber passNumber : Int) (name : String) (foundPass : Int)
  | paramInfo (runNumber passNumber : Int) (name : String) (foundPass : Int)
  | guessInfo (passNumber : Int)
  | setRunDisabledWarning
  | customParamError
  deriving DecidableEq

/-- Selection bits. Modelled from the spec: the enumeration is declared in
`AliMuonTrackCuts.h`, outside the file; the spec lists seven independent
flags, taken here as `BIT(0)` .. `BIT(6)`. -/
def kMuEta : Nat := 1
/-- Selection bit `BIT(1)`, see `kMuEta`. -/
def kMuThetaAbs : Nat := 2
/-- Selection bit `BIT(2)`, see `kMuEta`. -/
def kMuPdca : Nat := 4
/-- Selection bit `BIT(3)`, see `kMuEta`. -/
def kMuMatchApt : Nat := 8
/-- Selection bit `BIT(4)`, see `kMuEta`. -/
def kMuMatchLpt : Nat := 16
/-- Selection bit `BIT(5)`, see `kMuEta`. -/
def kMuMatchHpt : Nat := 32
/-- Selection bit `BIT(6)`, see `kMuEta`. -/
def kMuTrackChiSquare : Nat := 64

section Code

variable {F : Type} [LinearOrderedField F]

/-- `AliAnalysisCuts::GetFilterMask`. -/
def GetFilterMask (cuts : AliMuonTrackCuts F) : Nat := cuts.fFilterMask

/-- `AliAnalysisCuts::SetFilterMask`. -/
def SetFilterMask (cuts : AliMuonTrackCuts F) (mask : Nat) : AliMuonTrackCuts F :=
  { cuts with fFilterMask := mask }

/-- `AliMuonTrackCuts::SetDefaultFilterMask`. -/
def SetDefaultFilterMask (cuts : AliMuonTrackCuts F) : AliMuonTrackCuts F :=
  SetFilterMask cuts (kMuEta ||| kMuThetaAbs ||| kMuPdca ||| kMuMatchApt)

/-- Default constructor; `param` is the default-constructed parameter object and
the filter mask of a default-constructed `AliAnalysisCuts` is 0. -/
def ctorDefault (param : AliOADBMuonTrackCutsParam F) : AliMuonTrackCuts F :=
  { fFilterMask := 0, fIsMC := false, fUseCustomParam := false, fSharpPtCut := false,
    fAllowDefaultParams := false, fPassNumber := -1, fOADBParam := param }

/-- Named constructor: same members, then `SetDefaultFilterMask`. -/
def ctorNamed (param : AliOADBMuonTrackCutsParam F) : AliMuonTrackCuts F :=
  SetDefaultFilterMask (ctorDefault param)

/-! ### Parameter resolution -/

/-- Local variables of the key loop of `ReadParamFromOADB`; null pointers are `none`. -/
structure ScanVars (F : Type) where
  oadbContainer : Option (AliOADBContainer F)
  runMatchParams : Option (AliOADBMuonTrackCutsParam F)
  lastMatchParams : Option (AliOADBMuonTrackCutsParam F)
  lastDefaultParams : Option (AliOADBMuonTrackCutsParam F)
  lastDefaultPass : Int
  lastMatchPass : Int
  foundPass : Int

/-- Values of the locals before the loop. -/
def ScanVars.init : ScanVars F :=
  { oadbContainer := none, runMatchParams := none, lastMatchParams := none,
    lastDefaultParams := none, lastDefaultPass := -999, lastMatchPass := -999,
    foundPass := -999 }

/-- The `while ( ( key = next() ) )` loop of `ReadParamFromOADB`: `continue` goes on
with the remaining keys, `break` returns the locals at once. -/
def scanKeys (fPassNumber runNumber passNumber : Int) :
    List (OADBKey F) → ScanVars F → ScanVars F
  | [], v => v
  | key :: rest, v =>
    let currPass := key.currPass
    if fPassNumber ≥ 0 ∧ currPass ≠ fPassNumber then
      scanKeys fPassNumber runNumber passNumber rest v
    else
      let oadbContainer := key.container
      let v := { v with oadbContainer := some oadbContainer }
      let currParams := oadbContainer.GetObject runNumber
      if (oadbContainer.GetDefaultObject currParams.GetName).isSome then
        if currPass > v.lastDefaultPass then
          scanKeys fPassNumber runNumber passNumber rest
            { v with lastDefaultPass := currPass, lastDefaultParams := some currParams }
        else
          scanKeys fPassNumber runNumber passNumber rest v
      else
        if currPass = passNumber then
          { v with foundPass := currPass, runMatchParams := some currParams }
        else if currPass > v.lastMatchPass then
          scanKeys fPassNumber runNumber passNumber rest
            { v with lastMatchPass := currPass, lastMatchParams := some currParams }
        else
          scanKeys fPassNumber runNumber passNumber rest v

/-- What a returning call of `ReadParamFromOADB` leaves behind: the object, the
returned `Bool_t` and the diagnostics in emission order. -/
structure ReadResult (F : Type) where
  cuts : AliMuonTrackCuts F
  ret : Bool
  log : List LogMsg

/-- `AliMuonTrackCuts::ReadParamFromOADB`. -/
def ReadParamFromOADB (cuts : AliMuonTrackCuts F) (oadb : OADB F)
    (runNumber passNumber : Int) : Except Fatal (ReadResult F) :=
  if passNumber < 0 ∧ ¬ cuts.fAllowDefaultParams then .error Fatal.passNotSpecified
  else
    match oadb.file cuts.fIsMC with
    | none => .error Fatal.fileNotFound
    | some listOfKeys =>
      let v := scanKeys cuts.fPassNumber runNumber passNumber listOfKeys ScanVars.init
      match v.oadbContainer with
      | none => .error Fatal.passNotFound
      | some _ =>
        match v.runMatchParams with
        | some runMatchParams =>
          let cuts1 := { cuts with fOADBParam := runMatchParams }
          .ok { cuts := cuts1, ret := true,
                log := [LogMsg.paramInfo runNumber passNumber cuts1.fOADBParam.GetName v.foundPass] }
        | none =>
          if cuts.fAllowDefaultParams then
            let currParams := match v.lastMatchParams with
              | some p => some p
              | none => v.lastDefaultParams
            match currParams with
            | none => .error Fatal.noParameterFound
            | some currParams =>
              let foundPass := if v.lastMatchParams.isSome then v.lastMatchPass else v.lastDefaultPass
              let cuts1 := { cuts with fOADBParam := currParams }
              .ok { cuts := cuts1, ret := true,
                    log := [LogMsg.fallbackWarning runNumber passNumber cuts1.fOADBParam.GetName foundPass,
                            LogMsg.paramInfo runNumber passNumber cuts1.fOADBParam.GetName foundPass] }
          else .error Fatal.runNotFound

/-- `AliMuonTrackCuts::SetCustomParamFromRun`: the object after the call and the
diagnostics, or the fatal error of the resolution. -/
def SetCustomParamFromRun (cuts : AliMuonTrackCuts F) (oadb : OADB F)
    (runNumber passNumber : Int) : Except Fatal (AliMuonTrackCuts F × List LogMsg) :=
  let cuts1 := { cuts with fPassNumber := passNumber }
  match ReadParamFromOADB cuts1 oadb runNumber passNumber with
  | .error e => .error e
  | .ok r => .ok ({ r.cuts with fUseCustomParam := true }, r.log ++ [LogMsg.setRunDisabledWarning])

/-- What a call of `CustomParam` leaves behind: the object, the returned pointer (the
address of `fOADBParam` is rendered as the record it points to, the null pointer as `none`)
and the diagnostics. -/
structure CustomParamResult (F : Type) where
  cuts : AliMuonTrackCuts F
  ptr : Option (AliOADBMuonTrackCutsParam F)
  log : List LogMsg

/-- `AliMuonTrackCuts::CustomParam`. -/
def CustomParam (cuts : AliMuonTrackCuts F) : CustomParamResult F :=
  if ¬ cuts.fUseCustomParam then { cuts := cuts, ptr := none, log := [LogMsg.customParamError] }
  else { cuts := cuts, ptr := some cuts.fOADBParam, log := [] }

/-- `AliMuonTrackCuts::SetRun`. -/
def SetRun (cuts : AliMuonTrackCuts F) (oadb : OADB F)
    (eventHandler : AliInputEventHandler) : Except Fatal (ReadResult F) :=
  if cuts.fUseCustomParam then .ok { cuts := cuts, ret := false, log := [] }
  else
    let runNumber := eventHandler.GetRunNumber
    if cuts.fPassNumber < 0 ∧ ¬ cuts.fAllowDefaultParams then
      let passNumber := eventHandler.GetPassNumber
      match ReadParamFromOADB cuts oadb runNumber passNumber with
      | .error e => .error e
      | .ok r => .ok { r with log := LogMsg.guessInfo passNumber :: r.log }
    else
      ReadParamFromOADB cuts oadb runNumber cuts.fPassNumber

/-! ### Selection mask -/

/-- `AliMuonTrackCuts::IsThetaAbs23`. -/
def IsThetaAbs23 (track : AliVParticle F) : Bool :=
  decide (track.GetThetaAbsDeg < 3)

/-- `AliMuonTrackCuts::GetCorrectedDCA`. -/
def GetCorrectedDCA (cuts : AliMuonTrackCuts F) (track : AliVParticle F) : TVector3 F :=
  let vertex : TVector3 F :=
    { x := track.GetXatVertex, y := track.GetYatVertex, z := track.GetZatVertex }
  let dcaTrack : TVector3 F :=
    { x := track.GetXatDCA, y := track.GetYatDCA, z := track.GetZatDCA }
  (dcaTrack.sub vertex).sub cuts.fOADBParam.GetMeanDCA

/-- `AliMuonTrackCuts::GetAverageMomentum`. -/
def GetAverageMomentum (cuts : AliMuonTrackCuts F) (track : AliVParticle F) : F :=
  let pTot := track.P
  if ¬ track.IsAODTrack then track.PUncorrected
  else
    let meanPcorr :=
      if IsThetaAbs23 track then cuts.fOADBParam.GetMeanPCorr23
      else cuts.fOADBParam.GetMeanPCorr310
    pTot - meanPcorr

/-- The trigger-match loop of `GetSelectionMask` over the remaining levels
`(ilevel, cutLevel[ilevel])`; `break` returns the mask built so far. -/
def matchLoop (cuts : AliMuonTrackCuts F) (matchTrig : Int) (pt : Dbl F) :
    List (Int × Nat) → Nat → Nat
  | [], selectionMask => selectionMask
  | (ilevel, cutLevel) :: rest, selectionMask =>
    if matchTrig < ilevel + 1 then selectionMask
    else if cuts.fSharpPtCut = true ∧ pt < cuts.fOADBParam.GetSharpPtCut ilevel then selectionMask
    else matchLoop cuts matchTrig pt rest (selectionMask ||| cutLevel)

/-- `AliMuonTrackCuts::GetSelectionMask`. -/
def GetSelectionMask (sqrt : F → F) (cuts : AliMuonTrackCuts F) (track : AliVParticle F) : Nat :=
  let selectionMask : Nat := 0
  if ¬ track.IsMuonTrack then selectionMask
  else
    let eta := track.Eta
    let selectionMask := if eta > -4 ∧ eta < -2.5 then selectionMask ||| kMuEta else selectionMask
    let thetaAbsEndDeg := track.GetThetaAbsDeg
    let selectionMask :=
      if thetaAbsEndDeg > 2 ∧ thetaAbsEndDeg < 10 then selectionMask ||| kMuThetaAbs
      else selectionMask
    let matchTrig := track.GetMatchTrigger
    let pt := track.Pt
    let selectionMask :=
      matchLoop cuts matchTrig pt [(0, kMuMatchApt), (1, kMuMatchLpt), (2, kMuMatchHpt)]
        selectionMask
    let selectionMask :=
      if track.GetChi2perNDFtracker < cuts.fOADBParam.GetChi2NormCut then
        selectionMask ||| kMuTrackChiSquare
      else selectionMask
    let dcaAtVz := GetCorrectedDCA cuts track
    let pTotMean := GetAverageMomentum cuts track
    let pDca := pTotMean * dcaAtVz.Mag sqrt
    let pTot := track.P
    let sigmaPdca :=
      if IsThetaAbs23 track then cuts.fOADBParam.GetSigmaPdca23
      else cuts.fOADBParam.GetSigmaPdca310
    let nrp := cuts.fOADBParam.GetNSigmaPdca * cuts.fOADBParam.GetRelPResolution * pTot
    let pResolutionEffect := sigmaPdca / (1 - nrp / (1 + nrp))
    let slopeResolutionEffect := 535 * cuts.fOADBParam.GetSlopeResolution * pTot
    let sigmaPdcaWithRes :=
      sqrt (pResolutionEffect * pResolutionEffect + slopeResolutionEffect * slopeResolutionEffect)
    if pDca < cuts.fOADBParam.GetNSigmaPdca * sigmaPdcaWithRes then selectionMask ||| kMuPdca
    else selectionMask

/-- `AliMuonTrackCuts::IsSelected(TObject*)`. -/
def IsSelected (sqrt : F → F) (cuts : AliMuonTrackCuts F) (track : AliVParticle F) : Bool :=
  let filterMask := GetFilterMask cuts
  let selectionMask := GetSelectionMask sqrt cuts track
  decide ((selectionMask &&& filterMask) = filterMask)

/-- `AliMuonTrackCuts::TrackPtCutMatchTrigClass`; `ptCutFromClass0` is
`ptCutFromClass[0]`. -/
def TrackPtCutMatchTrigClass (cuts : AliMuonTrackCuts F) (track : AliVParticle F)
    (ptCutFromClass0 : Int) : Bool :=
  let matchTrig := track.GetMatchTrigger
  let matchTrackerPt :=
    if cuts.fSharpPtCut then
      decide (track.Pt ≥ cuts.fOADBParam.GetSharpPtCut (ptCutFromClass0 - 1))
    else true
  decide (matchTrig ≥ ptCutFromClass0) && matchTrackerPt

end Code

/-! ## Vocabulary of the statements -/

section Vocabulary

variable {F : Type}

/-- The pass filter at the head of the key loop lets the key through. -/
def inPassFilter (cuts : AliMuonTrackCuts F) (key : OADBKey F) : Prop :=
  ¬ (cuts.fPassNumber ≥ 0 ∧ key.currPass ≠ cuts.fPassNumber)

instance (cuts : AliMuonTrackCuts F) (key : OADBKey F) :
    Decidable (inPassFilter cuts key) := by
  unfold inPassFilter; infer_instance

/-- The object the key's container returns for the run is one of its default objects. -/
def isDefaultFor (key : OADBKey F) (runNumber : Int) : Bool :=
  (key.container.GetDefaultObject (key.container.GetObject runNumber).GetName).isSome

/-- An inPassFilter key whose object for the run is not a default one and whose pass is the
requested pass. -/
def exactMatch (cuts : AliMuonTrackCuts F) (runNumber passNumber : Int) (key : OADBKey F) : Prop :=
  inPassFilter cuts key ∧ isDefaultFor key runNumber = false ∧ key.currPass = passNumber

instance (cuts : AliMuonTrackCuts F) (r p : Int) (key : OADBKey F) :
    Decidable (exactMatch cuts r p key) := by
  unfold exactMatch; infer_instance

/-- Proof device: one fallback slot of the key loop in isolation. Among the keys
selected by `sel` the slot is overwritten exactly when the pass is strictly higher. -/
def bestSlot (sel : OADBKey F → Prop) [DecidablePred sel] (runNumber : Int) :
    List (OADBKey F) → Int × Option (AliOADBMuonTrackCutsParam F) →
      Int × Option (AliOADBMuonTrackCutsParam F)
  | [], c => c
  | key :: rest, c =>
    if sel key ∧ key.currPass > c.1 then
      bestSlot sel runNumber rest (key.currPass, some (key.container.GetObject runNumber))
    else bestSlot sel runNumber rest c

/-- Key `k`, found in `keys` between `pre` and `post`, is the first-encountered key
with the highest pass among the keys selected by `sel`. -/
def firstHighest (sel : OADBKey F → Prop) (keys pre : List (OADBKey F)) (k : OADBKey F)
    (post : List (OADBKey F)) : Prop :=
  keys = pre ++ k :: post ∧ sel k ∧
    (∀ k1 ∈ pre, sel k1 → k1.currPass < k.currPass) ∧
    (∀ k1 ∈ post, sel k1 → k1.currPass ≤ k.currPass)

/-- Expected outcome of a resolution that ends on the exact match `k`. -/
def exactResult (cuts : AliMuonTrackCuts F) (runNumber passNumber : Int) (k : OADBKey F) :
    ReadResult F :=
  { cuts := { cuts with fOADBParam := k.container.GetObject runNumber }, ret := true,
    log := [LogMsg.paramInfo runNumber passNumber (k.container.GetObject runNumber).GetName
              k.currPass] }

/-- Expected outcome of a resolution that falls back on key `k`. -/
def fallbackResult (cuts : AliMuonTrackCuts F) (runNumber passNumber : Int) (k : OADBKey F) :
    ReadResult F :=
  { cuts := { cuts with fOADBParam := k.container.GetObject runNumber }, ret := true,
    log := [LogMsg.fallbackWarning runNumber passNumber
              (k.container.GetObject runNumber).GetName k.currPass,
            LogMsg.paramInfo runNumber passNumber (k.container.GetObject runNumber).GetName
              k.currPass] }

end Vocabulary

/-- Proof device: the bits the trigger-match loop adds, i.e. the loop run from the empty
mask. -/
def matchBits {F : Type} [LinearOrderedField F] (cuts : AliMuonTrackCuts F) (matchTrig : Int)
    (pt : Dbl F) : Nat :=
  matchLoop cuts matchTrig pt [(0, kMuMatchApt), (1, kMuMatchLpt), (2, kMuMatchHpt)] 0

/-! ## The Pdca cut, term by term -/

section Pdca

variable {F : Type} [LinearOrderedField F]

/-- The local `sigmaPdca` of `GetSelectionMask`. -/
def sigmaPdcaOf (cuts : AliMuonTrackCuts F) (track : AliVParticle F) : F :=
  if IsThetaAbs23 track then cuts.fOADBParam.GetSigmaPdca23 else cuts.fOADBParam.GetSigmaPdca310

/-- The local `pResolutionEffect` of `GetSelectionMask`, as a function of the locals
`sigmaPdca` and `pTot`. -/
def pResolutionEffect (cuts : AliMuonTrackCuts F) (sigmaPdca pTot : F) : F :=
  let nrp := cuts.fOADBParam.GetNSigmaPdca * cuts.fOADBParam.GetRelPResolution * pTot
  sigmaPdca / (1 - nrp / (1 + nrp))

/-- The local `slopeResolutionEffect` of `GetSelectionMask`. -/
def slopeResolutionEffect (cuts : AliMuonTrackCuts F) (pTot : F) : F :=
  535 * cuts.fOADBParam.GetSlopeResolution * pTot

/-- The right-hand side `fOADBParam.GetNSigmaPdca() * sigmaPdcaWithRes` of the last
comparison of `GetSelectionMask`. -/
def pdcaThreshold (sqrt : F → F) (cuts : AliMuonTrackCuts F) (sigmaPdca pTot : F) : F :=
  cuts.fOADBParam.GetNSigmaPdca *
    sqrt (pResolutionEffect cuts sigmaPdca pTot * pResolutionEffect cuts sigmaPdca pTot +
          slopeResolutionEffect cuts pTot * slopeResolutionEffect cuts pTot)

/-- The Pdca condition in the words of the specification: regime, norm of the corrected
DCA, mean momentum, the two resolution effects and the final comparison. -/
def pdcaSpec (sqrt : F → F) (param : AliOADBMuonTrackCutsParam F) (track : AliVParticle F) :
    Prop :=
  let nearAxial : Prop := track.GetThetaAbsDeg < 3
  let dcaMag :=
    sqrt ((track.GetXatDCA - track.GetXatVertex - param.GetMeanDCA.x) ^ 2 +
          (track.GetYatDCA - track.GetYatVertex - param.GetMeanDCA.y) ^ 2 +
          (track.GetZatDCA - track.GetZatVertex - param.GetMeanDCA.z) ^ 2)
  let pTotal := track.P
  let pMean :=
    if track.IsAODTrack = false then track.PUncorrected
    else pTotal - (if nearAxial then param.GetMeanPCorr23 else param.GetMeanPCorr310)
  let nrp := param.GetNSigmaPdca * param.GetRelPResolution * pTotal
  let pResEffect :=
    (if nearAxial then param.GetSigmaPdca23 else param.GetSigmaPdca310) / (1 - nrp / (1 + nrp))
  let slopeEffect := 535 * param.GetSlopeResolution * pTotal
  pMean * dcaMag < param.GetNSigmaPdca * sqrt (pResEffect ^ 2 + slopeEffect ^ 2)

end Pdca

/-! ## Concrete inputs over any ordered field -/

section Inputs

variable (F : Type) [LinearOrderedField F]

/-- The parameter values of `paramSet`, over any ordered field. -/
def paramOver (name : String) : AliOADBMuonTrackCutsParam F :=
  { GetName := name, GetMeanDCA := ⟨0, 0, 0⟩, GetSigmaPdca23 := 80, GetSigmaPdca310 := 54,
    GetMeanPCorr23 := 2, GetMeanPCorr310 := 2, GetNSigmaPdca := 6, GetRelPResolution := 1 / 2000,
    GetSlopeResolution := 1 / 2000, GetChi2NormCut := 4, fSharpPtApt := Dbl.num (1 / 2),
    fSharpPtLpt := Dbl.num 1, fSharpPtHpt := Dbl.num (3 / 2) }

/-- A freshly constructed object (named constructor) holding `paramOver`. -/
def cutsOver : AliMuonTrackCuts F := ctorNamed (paramOver F "init")

/-- The muon of the scenarios of the specification: eta -3, absorber angle 5 degrees,
trigger level 3, pt 2, reduced chi-square 1, DCA at distance 5 from the vertex. -/
def muonOver : AliVParticle F :=
  { IsMuonTrack := true, Eta := -3, GetThetaAbsDeg := 5, GetMatchTrigger := 3,
    Pt := Dbl.num 2, P := 10,
    GetChi2perNDFtracker := 1, GetXatVertex := 0, GetYatVertex := 0, GetZatVertex := 0,
    GetXatDCA := 3, GetYatDCA := 4, GetZatDCA := 0, IsAODTrack := true, PUncorrected := 10 }

/-- Parameters whose sharp pt thresholds are not in ascending order (2, 1, 3/2). -/
def unorderedParam : AliOADBMuonTrackCutsParam F :=
  { paramOver F "unordered" with
    fSharpPtApt := Dbl.num 2, fSharpPtLpt := Dbl.num 1, fSharpPtHpt := Dbl.num (3 / 2) }

/-- An object with the sharp pt cut switched on and the thresholds of `unorderedParam`. -/
def unorderedCuts : AliMuonTrackCuts F :=
  { ctorNamed (unorderedParam F) with fSharpPtCut := true }

/-- A muon of pt 3/2 matching the low-pt trigger. -/
def lowPtMuon : AliVParticle F :=
  { muonOver F with GetMatchTrigger := 2, Pt := Dbl.num (3 / 2) }

end Inputs

/-! ## Concrete inputs over the rationals -/

/-- A parameter set with the given name; the numeric values are the same for every name. -/
def paramSet (name : String) : AliOADBMuonTrackCutsParam ℚ :=
  { GetName := name, GetMeanDCA := ⟨0, 0, 0⟩, GetSigmaPdca23 := 80, GetSigmaPdca310 := 54,
    GetMeanPCorr23 := 2, GetMeanPCorr310 := 2, GetNSigmaPdca := 6, GetRelPResolution := 1 / 2000,
    GetSlopeResolution := 1 / 2000, GetChi2NormCut := 4, fSharpPtApt := Dbl.num (1 / 2),
    fSharpPtLpt := Dbl.num 1, fSharpPtHpt := Dbl.num (3 / 2) }

/-- A key of the given pass whose container holds a run-specific object for every run and
no default object. -/
def runKey (pass : Int) (name : String) : OADBKey ℚ :=
  { GetName := name, currPass := pass,
    container := { GetObject := fun _ => paramSet name, GetDefaultObject := fun _ => none } }

/-- A key of the given pass whose container only holds a default object, returned for
every run. -/
def defaultKey (pass : Int) (name : String) : OADBKey ℚ :=
  { GetName := name, currPass := pass,
    container := { GetObject := fun _ => paramSet name,
                   GetDefaultObject := fun s => if s = name then some (paramSet name) else none } }

/-- A freshly constructed object (named constructor): pass unspecified, default parameters
not allowed, default filter mask. -/
def cuts0 : AliMuonTrackCuts ℚ := ctorNamed (paramSet "init")

/-- The object `cuts0` after default parameters have been allowed. -/
def allowCuts : AliMuonTrackCuts ℚ := { cuts0 with fAllowDefaultParams := true }

/-- The object `cuts0` after `SetCustomParamFromRun` for pass 1 resolved to the set "a". -/
def customCuts : AliMuonTrackCuts ℚ :=
  { cuts0 with fPassNumber := 1, fOADBParam := paramSet "a", fUseCustomParam := true }

/-- Storage whose two files both hold the given keys. -/
def oadbOf (keys : List (OADBKey ℚ)) : OADB ℚ := { file := fun _ => some keys }

/-- Square root on the rationals, rounded down to a multiple of the inverse denominator
(exact on squares of rationals). -/
def qsqrt (q : ℚ) : ℚ := (Nat.sqrt (q.num.toNat * q.den) : ℚ) / (q.den : ℚ)

/-- A muon in the spectrometer acceptance matching the high-pt trigger. -/
def muonTrack : AliVParticle ℚ :=
  { IsMuonTrack := true, Eta := -3, GetThetaAbsDeg := 5, GetMatchTrigger := 3,
    Pt := Dbl.num 2, P := 10,
    GetChi2perNDFtracker := 1, GetXatVertex := 0, GetYatVertex := 0, GetZatVertex := 0,
    GetXatDCA := 3, GetYatDCA := 4, GetZatDCA := 0, IsAODTrack := true, PUncorrected := 10 }

/-- The same observables on a track that fails the muon test. -/
def hadronTrack : AliVParticle ℚ := { muonTrack with IsMuonTrack := false }

/-! ## Further inputs and the level table -/

section Inputs2

variable (F : Type) [LinearOrderedField F]

/-- The object `cutsOver` with the sharp pt cut switched on. -/
def sharpCuts : AliMuonTrackCuts F := { cutsOver F with fSharpPtCut := true }

/-- A muon of pt 3/10 matching the all-pt trigger only. -/
def softMuon : AliVParticle F := { muonOver F with GetMatchTrigger := 1, Pt := Dbl.num (3 / 10) }

/-- The muon of the scenarios with a transverse momentum that is NaN. -/
def nanMuon : AliVParticle F := { muonOver F with Pt := Dbl.nan }

end Inputs2

/-- The array `cutLevel` of `GetSelectionMask`, indexed from 0. -/
def cutLevel (ilevel : Int) : Nat :=
  if ilevel = 0 then kMuMatchApt else if ilevel = 1 then kMuMatchLpt else kMuMatchHpt

/-- The object `allowCuts` after pass 1 has been stored as requested pass. -/
def pass1Cuts : AliMuonTrackCuts ℚ := { allowCuts with fPassNumber := 1 }

/-! ## Lemmas on the key loop -/

section Resolution

variable {F : Type}

theorem scanKeys_exact (cuts : AliMuonTrackCuts F) (r p : Int) (pre : List (OADBKey F))
    (k : OADBKey F) (post : List (OADBKey F))
    (hpre : ∀ k1 ∈ pre, ¬ exactMatch cuts r p k1) (hk : exactMatch cuts r p k)
    (v : ScanVars F) :
    (scanKeys cuts.fPassNumber r p (pre ++ k :: post) v).oadbContainer = some k.container ∧
    (scanKeys cuts.fPassNumber r p (pre ++ k :: post) v).runMatchParams
      = some (k.container.GetObject r) ∧
    (scanKeys cuts.fPassNumber r p (pre ++ k :: post) v).foundPass = k.currPass := by
  induction pre generalizing v with
  | nil =>
    obtain ⟨ha, hd, hp⟩ := hk
    unfold inPassFilter at ha
    unfold isDefaultFor at hd
    simp only [List.nil_append, scanKeys]
    rw [if_neg ha]
    simp [hd, hp]
  | cons a pre ih =>
    have hpre1 : ∀ k1 ∈ pre, ¬ exactMatch cuts r p k1 :=
      fun k1 h1 => hpre k1 (List.mem_cons_of_mem _ h1)
    have ha : ¬ exactMatch cuts r p a := hpre a (List.mem_cons_self _ _)
    simp only [List.cons_append, scanKeys]
    split_ifs with h1 h2 h3 h4 h5
    · exact ih hpre1 _
    · exact ih hpre1 _
    · exact ih hpre1 _
    · exact absurd ⟨h1, by simpa [isDefaultFor] using h2, h4⟩ ha
    · exact ih hpre1 _
    · exact ih hpre1 _

theorem scanKeys_noExact (cuts : AliMuonTrackCuts F) (r p : Int) (l : List (OADBKey F))
    (hl : ∀ k ∈ l, ¬ exactMatch cuts r p k) (v : ScanVars F) :
    (scanKeys cuts.fPassNumber r p l v).runMatchParams = v.runMatchParams ∧
    (scanKeys cuts.fPassNumber r p l v).foundPass = v.foundPass ∧
    ((scanKeys cuts.fPassNumber r p l v).oadbContainer.isSome = true ↔
      (v.oadbContainer.isSome = true ∨ ∃ k ∈ l, inPassFilter cuts k)) ∧
    ((scanKeys cuts.fPassNumber r p l v).lastMatchPass,
      (scanKeys cuts.fPassNumber r p l v).lastMatchParams)
      = bestSlot (fun k => inPassFilter cuts k ∧ isDefaultFor k r = false) r l
          (v.lastMatchPass, v.lastMatchParams) ∧
    ((scanKeys cuts.fPassNumber r p l v).lastDefaultPass,
      (scanKeys cuts.fPassNumber r p l v).lastDefaultParams)
      = bestSlot (fun k => inPassFilter cuts k ∧ isDefaultFor k r = true) r l
          (v.lastDefaultPass, v.lastDefaultParams) := by
  induction l generalizing v with
  | nil => simp [scanKeys, bestSlot]
  | cons a l ih =>
    have hl1 : ∀ k ∈ l, ¬ exactMatch cuts r p k :=
      fun k1 h1 => hl k1 (List.mem_cons_of_mem _ h1)
    have ha : ¬ exactMatch cuts r p a := hl a (List.mem_cons_self _ _)
    have hadm : inPassFilter cuts a ↔ ¬ (cuts.fPassNumber ≥ 0 ∧ a.currPass ≠ cuts.fPassNumber) := Iff.rfl
    simp only [scanKeys]
    split_ifs with h1 h2 h3 h4 h5
    · obtain ⟨e1, e2, e3, e4, e5⟩ := ih hl1 v
      have hna : ¬ inPassFilter cuts a := fun h => h h1
      refine ⟨e1, e2, ?_, ?_, ?_⟩
      · rw [e3]; simp [hna]
      · rw [e4]; simp [bestSlot, hna]
      · rw [e5]; simp [bestSlot, hna]
    · obtain ⟨e1, e2, e3, e4, e5⟩ := ih hl1
        { v with oadbContainer := some a.container, lastDefaultPass := a.currPass,
                 lastDefaultParams := some (a.container.GetObject r) }
      have hya : inPassFilter cuts a := h1
      have hd : isDefaultFor a r = true := h2
      refine ⟨e1, e2, ?_, ?_, ?_⟩
      · rw [e3]; simp; exact Or.inr (Or.inl hya)
      · rw [e4]; simp [bestSlot, hd]
      · rw [e5]; simp [bestSlot, hd, hya, h3]
    · obtain ⟨e1, e2, e3, e4, e5⟩ := ih hl1 { v with oadbContainer := some a.container }
      have hya : inPassFilter cuts a := h1
      have hd : isDefaultFor a r = true := h2
      refine ⟨e1, e2, ?_, ?_, ?_⟩
      · rw [e3]; simp; exact Or.inr (Or.inl hya)
      · rw [e4]; simp [bestSlot, hd]
      · rw [e5]; simp [bestSlot, hd, hya, h3]
    · exact absurd ⟨h1, by simpa [isDefaultFor] using h2, h4⟩ ha
    · obtain ⟨e1, e2, e3, e4, e5⟩ := ih hl1
        { v with oadbContainer := some a.container, lastMatchPass := a.currPass,
                 lastMatchParams := some (a.container.GetObject r) }
      have hya : inPassFilter cuts a := h1
      have hd : isDefaultFor a r = false := by simpa [isDefaultFor] using h2
      refine ⟨e1, e2, ?_, ?_, ?_⟩
      · rw [e3]; simp; exact Or.inr (Or.inl hya)
      · rw [e4]; simp [bestSlot, hd, hya, h5]
      · rw [e5]; simp [bestSlot, hd]
    · obtain ⟨e1, e2, e3, e4, e5⟩ := ih hl1 { v with oadbContainer := some a.container }
      have hya : inPassFilter cuts a := h1
      have hd : isDefaultFor a r = false := by simpa [isDefaultFor] using h2
      refine ⟨e1, e2, ?_, ?_, ?_⟩
      · rw [e3]; simp; exact Or.inr (Or.inl hya)
      · rw [e4]; simp [bestSlot, hd, hya, h5]
      · rw [e5]; simp [bestSlot, hd]

theorem bestSlot_spec (sel : OADBKey F → Prop) [DecidablePred sel] (r : Int)
    (l : List (OADBKey F)) (c : Int × Option (AliOADBMuonTrackCutsParam F)) :
    (bestSlot sel r l c = c ∧ ∀ k ∈ l, sel k → k.currPass ≤ c.1) ∨
    ∃ pre k post, firstHighest sel l pre k post ∧ c.1 < k.currPass ∧
      bestSlot sel r l c = (k.currPass, some (k.container.GetObject r)) := by
  induction l generalizing c with
  | nil => left; simp [bestSlot]
  | cons a l ih =>
    simp only [bestSlot]
    split_ifs with h
    · obtain ⟨hs, hgt⟩ := h
      rcases ih (a.currPass, some (a.container.GetObject r)) with ⟨e, hle⟩ | ⟨pre, k, post, hfh, hlt, e⟩
      · right
        exact ⟨[], a, l, ⟨rfl, hs, by simp, hle⟩, hgt, e⟩
      · right
        obtain ⟨hl, hk, hpre, hpost⟩ := hfh
        refine ⟨a :: pre, k, post, ⟨by simp [hl], hk, ?_, hpost⟩, lt_trans hgt hlt, e⟩
        intro k1 hk1 hs1
        rcases List.mem_cons.1 hk1 with rfl | hk1
        · exact hlt
        · exact hpre k1 hk1 hs1
    · rcases ih c with ⟨e, hle⟩ | ⟨pre, k, post, hfh, hlt, e⟩
      · left
        refine ⟨e, ?_⟩
        intro k1 hk1 hs1
        rcases List.mem_cons.1 hk1 with rfl | hk1
        · by_contra hc
          exact h ⟨hs1, lt_of_not_le hc⟩
        · exact hle k1 hk1 hs1
      · right
        obtain ⟨hl, hk, hpre, hpost⟩ := hfh
        refine ⟨a :: pre, k, post, ⟨by simp [hl], hk, ?_, hpost⟩, hlt, e⟩
        intro k1 hk1 hs1
        rcases List.mem_cons.1 hk1 with rfl | hk1
        · by_contra hc
          exact h ⟨hs1, lt_of_lt_of_le hlt (le_of_not_lt hc)⟩
        · exact hpre k1 hk1 hs1

theorem read_exact (cuts : AliMuonTrackCuts F) (oadb : OADB F) (r p : Int)
    (pre : List (OADBKey F)) (k : OADBKey F) (post : List (OADBKey F))
    (hp : 0 ≤ p ∨ cuts.fAllowDefaultParams = true)
    (hfile : oadb.file cuts.fIsMC = some (pre ++ k :: post))
    (hpre : ∀ k1 ∈ pre, ¬ exactMatch cuts r p k1) (hk : exactMatch cuts r p k) :
    ReadParamFromOADB cuts oadb r p = Except.ok (exactResult cuts r p k) := by
  obtain ⟨e1, e2, e3⟩ := scanKeys_exact cuts r p pre k post hpre hk ScanVars.init
  have hguard : ¬ (p < 0 ∧ ¬ cuts.fAllowDefaultParams = true) := by
    rintro ⟨h1, h2⟩
    rcases hp with h | h
    · exact absurd h (not_le.2 h1)
    · exact h2 h
  unfold ReadParamFromOADB
  rw [if_neg hguard]
  simp only [hfile, e1, e2, e3, exactResult]

theorem read_noExact_vars (cuts : AliMuonTrackCuts F) (oadb : OADB F) (r p : Int)
    (keys : List (OADBKey F)) (hallow : cuts.fAllowDefaultParams = true)
    (hfile : oadb.file cuts.fIsMC = some keys)
    (hno : ∀ k ∈ keys, ¬ exactMatch cuts r p k)
    (c : AliOADBContainer F)
    (hc : (scanKeys cuts.fPassNumber r p keys ScanVars.init).oadbContainer = some c) :
    ReadParamFromOADB cuts oadb r p =
      match (match (scanKeys cuts.fPassNumber r p keys ScanVars.init).lastMatchParams with
             | some q => some q
             | none => (scanKeys cuts.fPassNumber r p keys ScanVars.init).lastDefaultParams) with
      | none => Except.error Fatal.noParameterFound
      | some currParams =>
        Except.ok
          { cuts := { cuts with fOADBParam := currParams }, ret := true,
            log := [LogMsg.fallbackWarning r p currParams.GetName
                      (if (scanKeys cuts.fPassNumber r p keys ScanVars.init).lastMatchParams.isSome
                       then (scanKeys cuts.fPassNumber r p keys ScanVars.init).lastMatchPass
                       else (scanKeys cuts.fPassNumber r p keys ScanVars.init).lastDefaultPass),
                    LogMsg.paramInfo r p currParams.GetName
                      (if (scanKeys cuts.fPassNumber r p keys ScanVars.init).lastMatchParams.isSome
                       then (scanKeys cuts.fPassNumber r p keys ScanVars.init).lastMatchPass
                       else (scanKeys cuts.fPassNumber r p keys ScanVars.init).lastDefaultPass)] } := by
  obtain ⟨e1, -, -, -, -⟩ := scanKeys_noExact cuts r p keys hno ScanVars.init
  have hguard : ¬ (p < 0 ∧ ¬ cuts.fAllowDefaultParams = true) := fun h => h.2 hallow
  have e1n : (scanKeys cuts.fPassNumber r p keys ScanVars.init).runMatchParams = none := by
    rw [e1]; rfl
  unfold ReadParamFromOADB
  rw [if_neg hguard]
  simp only [hfile, hc, e1n, hallow, if_true]

theorem read_fallback (cuts : AliMuonTrackCuts F) (oadb : OADB F) (r p : Int)
    (keys : List (OADBKey F)) (hallow : cuts.fAllowDefaultParams = true)
    (hfile : oadb.file cuts.fIsMC = some keys)
    (hno : ∀ k ∈ keys, ¬ exactMatch cuts r p k)
    (hsent : ∀ k ∈ keys, inPassFilter cuts k → -999 < k.currPass) :
    ((∃ k ∈ keys, inPassFilter cuts k ∧ isDefaultFor k r = false) →
      ∃ pre k post,
        firstHighest (fun k => inPassFilter cuts k ∧ isDefaultFor k r = false) keys pre k post ∧
        ReadParamFromOADB cuts oadb r p = Except.ok (fallbackResult cuts r p k)) ∧
    ((¬ ∃ k ∈ keys, inPassFilter cuts k ∧ isDefaultFor k r = false) →
      (∃ k ∈ keys, inPassFilter cuts k) →
      ∃ pre k post,
        firstHighest (fun k => inPassFilter cuts k ∧ isDefaultFor k r = true) keys pre k post ∧
        ReadParamFromOADB cuts oadb r p = Except.ok (fallbackResult cuts r p k)) := by
  obtain ⟨-, -, e3, e4, e5⟩ := scanKeys_noExact cuts r p keys hno ScanVars.init
  have e4n : ((scanKeys cuts.fPassNumber r p keys ScanVars.init).lastMatchPass,
      (scanKeys cuts.fPassNumber r p keys ScanVars.init).lastMatchParams)
      = bestSlot (fun k => inPassFilter cuts k ∧ isDefaultFor k r = false) r keys (-999, none) := e4
  have e5n : ((scanKeys cuts.fPassNumber r p keys ScanVars.init).lastDefaultPass,
      (scanKeys cuts.fPassNumber r p keys ScanVars.init).lastDefaultParams)
      = bestSlot (fun k => inPassFilter cuts k ∧ isDefaultFor k r = true) r keys (-999, none) := e5
  constructor
  · rintro ⟨k0, hk0, ha0, hd0⟩
    obtain ⟨c, hc⟩ := Option.isSome_iff_exists.1 (e3.2 (Or.inr ⟨k0, hk0, ha0⟩))
    rcases bestSlot_spec (fun k => inPassFilter cuts k ∧ isDefaultFor k r = false) r keys (-999, none)
      with ⟨-, hle⟩ | ⟨pre, k, post, hfh, -, e⟩
    · exact absurd (hle k0 hk0 ⟨ha0, hd0⟩) (not_le.2 (hsent k0 hk0 ha0))
    · rw [e] at e4n
      obtain ⟨m1, m2⟩ := Prod.mk.inj e4n
      refine ⟨pre, k, post, hfh, ?_⟩
      rw [read_noExact_vars cuts oadb r p keys hallow hfile hno c hc]
      simp [m1, m2, fallbackResult]
  · intro hnd ⟨k0, hk0, ha0⟩
    obtain ⟨c, hc⟩ := Option.isSome_iff_exists.1 (e3.2 (Or.inr ⟨k0, hk0, ha0⟩))
    have hd0 : isDefaultFor k0 r = true := by
      cases hd : isDefaultFor k0 r
      · exact absurd ⟨k0, hk0, ha0, hd⟩ hnd
      · rfl
    rcases bestSlot_spec (fun k => inPassFilter cuts k ∧ isDefaultFor k r = false) r keys (-999, none)
      with ⟨en, -⟩ | ⟨pre, k, post, hfh, -, -⟩
    · rw [en] at e4n
      obtain ⟨-, m2⟩ := Prod.mk.inj e4n
      rcases bestSlot_spec (fun k => inPassFilter cuts k ∧ isDefaultFor k r = true) r keys (-999, none)
        with ⟨-, hle⟩ | ⟨pre, k, post, hfh, -, e⟩
      · exact absurd (hle k0 hk0 ⟨ha0, hd0⟩) (not_le.2 (hsent k0 hk0 ha0))
      · rw [e] at e5n
        obtain ⟨d1, d2⟩ := Prod.mk.inj e5n
        refine ⟨pre, k, post, hfh, ?_⟩
        rw [read_noExact_vars cuts oadb r p keys hallow hfile hno c hc]
        simp [m2, d1, d2, fallbackResult]
    · obtain ⟨hl, hk, -, -⟩ := hfh
      exact absurd ⟨k, by simp [hl], hk⟩ hnd

theorem exists_first_split {α : Type} (P : α → Prop) (l : List α) (h : ∃ a ∈ l, P a) :
    ∃ pre a post, l = pre ++ a :: post ∧ P a ∧ ∀ b ∈ pre, ¬ P b := by
  induction l with
  | nil => obtain ⟨a, ha, -⟩ := h; cases ha
  | cons x l ih =>
    by_cases hx : P x
    · exact ⟨[], x, l, rfl, hx, by simp⟩
    · obtain ⟨a, ha, hPa⟩ := h
      rcases List.mem_cons.1 ha with rfl | ha
      · exact absurd hPa hx
      · obtain ⟨pre, b, post, hl, hb, hpre⟩ := ih ⟨a, ha, hPa⟩
        refine ⟨x :: pre, b, post, by simp [hl], hb, ?_⟩
        intro c hc
        rcases List.mem_cons.1 hc with rfl | hc
        · exact hx
        · exact hpre c hc

theorem firstHighest_max (sel : OADBKey F → Prop) (keys pre : List (OADBKey F))
    (k : OADBKey F) (post : List (OADBKey F)) (h : firstHighest sel keys pre k post) :
    k ∈ keys ∧ sel k ∧ ∀ k1 ∈ keys, sel k1 → k1.currPass ≤ k.currPass := by
  obtain ⟨hl, hk, hpre, hpost⟩ := h
  refine ⟨by simp [hl], hk, ?_⟩
  intro k1 hk1 hs
  rw [hl] at hk1
  rcases List.mem_append.1 hk1 with h1 | h1
  · exact le_of_lt (hpre k1 h1 hs)
  · rcases List.mem_cons.1 h1 with rfl | h1
    · exact le_refl _
    · exact hpost k1 h1 hs

/-! ## Parameter resolution: C1 to C5 -/

/-- C1 (amended): when the requested pass is non-negative or default parameters are allowed,
a key list holding an exact match (inPassFilter, non-default for the run, pass equal to the
requested pass) resolves successfully to the record of the first such key in scan order,
with resolved pass equal to the requested pass and the parameter info as only diagnostic
(no fallback warning); the same outcome is obtained for any keys placed after that key and
for either value of `fAllowDefaultParams` that keeps the guard satisfied. -/
theorem C1_exact_match_wins (cuts : AliMuonTrackCuts F) (oadb : OADB F) (r p : Int)
    (keys : List (OADBKey F))
    (hp : 0 ≤ p ∨ cuts.fAllowDefaultParams = true)
    (hfile : oadb.file cuts.fIsMC = some keys)
    (hex : ∃ k ∈ keys, exactMatch cuts r p k) :
    ∃ pre k post, keys = pre ++ k :: post ∧ exactMatch cuts r p k ∧
      (∀ k1 ∈ pre, ¬ exactMatch cuts r p k1) ∧
      ReadParamFromOADB cuts oadb r p
        = Except.ok
            { cuts := { cuts with fOADBParam := k.container.GetObject r }, ret := true,
              log := [LogMsg.paramInfo r p (k.container.GetObject r).GetName p] } ∧
      ∀ (b : Bool) (oadb2 : OADB F) (post2 : List (OADBKey F)),
        (0 ≤ p ∨ b = true) → oadb2.file cuts.fIsMC = some (pre ++ k :: post2) →
        ReadParamFromOADB { cuts with fAllowDefaultParams := b } oadb2 r p
          = Except.ok
              { cuts := { cuts with fAllowDefaultParams := b,
                                    fOADBParam := k.container.GetObject r },
                ret := true,
                log := [LogMsg.paramInfo r p (k.container.GetObject r).GetName p] } := by
  obtain ⟨pre, k, post, hl, hk, hpre⟩ := exists_first_split (exactMatch cuts r p) keys hex
  have hkp : k.currPass = p := hk.2.2
  refine ⟨pre, k, post, hl, hk, hpre, ?_, ?_⟩
  · rw [read_exact cuts oadb r p pre k post hp (hl ▸ hfile) hpre hk, exactResult, hkp]
  · intro b oadb2 post2 hb hfile2
    have h2 := read_exact { cuts with fAllowDefaultParams := b } oadb2 r p pre k post2 hb hfile2
      hpre hk
    rw [h2, exactResult, hkp]

/-- Witness of C1: run 5, pass 1, an exact match after a default key and before another key. -/
theorem C1_exact_match_wins_witness :
    ∃ pre k post, [defaultKey 1 "d", runKey 1 "a", runKey 1 "b"] = pre ++ k :: post ∧
      exactMatch cuts0 5 1 k ∧
      (∀ k1 ∈ pre, ¬ exactMatch cuts0 5 1 k1) ∧
      ReadParamFromOADB cuts0 (oadbOf [defaultKey 1 "d", runKey 1 "a", runKey 1 "b"]) 5 1
        = Except.ok
            { cuts := { cuts0 with fOADBParam := k.container.GetObject 5 }, ret := true,
              log := [LogMsg.paramInfo 5 1 (k.container.GetObject 5).GetName 1] } ∧
      ∀ (b : Bool) (oadb2 : OADB ℚ) (post2 : List (OADBKey ℚ)),
        (0 ≤ (1 : Int) ∨ b = true) → oadb2.file cuts0.fIsMC = some (pre ++ k :: post2) →
        ReadParamFromOADB { cuts0 with fAllowDefaultParams := b } oadb2 5 1
          = Except.ok
              { cuts := { cuts0 with fAllowDefaultParams := b,
                                     fOADBParam := k.container.GetObject 5 },
                ret := true,
                log := [LogMsg.paramInfo 5 1 (k.container.GetObject 5).GetName 1] } :=
  C1_exact_match_wins cuts0 (oadbOf [defaultKey 1 "d", runKey 1 "a", runKey 1 "b"]) 5 1
    [defaultKey 1 "d", runKey 1 "a", runKey 1 "b"] (Or.inl (by decide)) rfl
    ⟨runKey 1 "a", by simp, by decide⟩

/-- Counterexample to C1 as stated: with an unspecified requested pass (-1) and default
parameters not allowed, a key that is an exact match for pass -1 does not make the call
succeed (it is fatal, "Pass number not specified!"), while the same call with default
parameters allowed succeeds on that key: the outcome depends on `fAllowDefaultParams`. -/
theorem C1_counterexample :
    exactMatch cuts0 5 (-1) (runKey (-1) "a") ∧
    cuts0.fAllowDefaultParams = false ∧
    ReadParamFromOADB cuts0 (oadbOf [runKey (-1) "a"]) 5 (-1)
      = Except.error Fatal.passNotSpecified ∧
    ReadParamFromOADB allowCuts (oadbOf [runKey (-1) "a"]) 5 (-1)
      = Except.ok (exactResult allowCuts 5 (-1) (runKey (-1) "a")) :=
  ⟨by decide, rfl, rfl, rfl⟩

/-- C2 (amended): with no exact match, default parameters allowed, at least one inPassFilter key
and all inPassFilter passes above the initial slot value -999, resolution falls back on an
inPassFilter key whose pass is the maximum over the inPassFilter non-default keys when there is one
(a non-default key is then returned whatever the passes of the default keys), and the maximum
over all inPassFilter keys otherwise; the returned pass is the maximum over all inPassFilter keys
whenever every inPassFilter default key is matched or exceeded in pass by an inPassFilter
non-default key. -/
theorem C2_fallback_max_within_slot (cuts : AliMuonTrackCuts F) (oadb : OADB F) (r p : Int)
    (keys : List (OADBKey F)) (hallow : cuts.fAllowDefaultParams = true)
    (hfile : oadb.file cuts.fIsMC = some keys)
    (hno : ∀ k ∈ keys, ¬ exactMatch cuts r p k)
    (hsent : ∀ k ∈ keys, inPassFilter cuts k → -999 < k.currPass)
    (hadm : ∃ k ∈ keys, inPassFilter cuts k) :
    ∃ k ∈ keys, inPassFilter cuts k ∧
      ReadParamFromOADB cuts oadb r p = Except.ok (fallbackResult cuts r p k) ∧
      ((∃ k1 ∈ keys, inPassFilter cuts k1 ∧ isDefaultFor k1 r = false) →
        isDefaultFor k r = false ∧
        ∀ k1 ∈ keys, inPassFilter cuts k1 → isDefaultFor k1 r = false → k1.currPass ≤ k.currPass) ∧
      ((¬ ∃ k1 ∈ keys, inPassFilter cuts k1 ∧ isDefaultFor k1 r = false) →
        isDefaultFor k r = true ∧ ∀ k1 ∈ keys, inPassFilter cuts k1 → k1.currPass ≤ k.currPass) ∧
      ((∀ k1 ∈ keys, inPassFilter cuts k1 → isDefaultFor k1 r = true →
          ∃ k2 ∈ keys, inPassFilter cuts k2 ∧ isDefaultFor k2 r = false ∧ k1.currPass ≤ k2.currPass) →
        ∀ k1 ∈ keys, inPassFilter cuts k1 → k1.currPass ≤ k.currPass) := by
  obtain ⟨hA, hB⟩ := read_fallback cuts oadb r p keys hallow hfile hno hsent
  have hbool : ∀ k1 : OADBKey F, isDefaultFor k1 r = false ∨ isDefaultFor k1 r = true := by
    intro k1; cases isDefaultFor k1 r <;> simp
  by_cases hnd : ∃ k1 ∈ keys, inPassFilter cuts k1 ∧ isDefaultFor k1 r = false
  · obtain ⟨pre, k, post, hfh, hres⟩ := hA hnd
    obtain ⟨hmem, ⟨hka, hkd⟩, hmax⟩ := firstHighest_max _ keys pre k post hfh
    refine ⟨k, hmem, hka, hres, fun _ => ⟨hkd, fun k1 h1 a1 d1 => hmax k1 h1 ⟨a1, d1⟩⟩,
      fun h => absurd hnd h, ?_⟩
    intro hdom k1 h1 a1
    rcases hbool k1 with d1 | d1
    · exact hmax k1 h1 ⟨a1, d1⟩
    · obtain ⟨k2, h2, a2, d2, hle⟩ := hdom k1 h1 a1 d1
      exact le_trans hle (hmax k2 h2 ⟨a2, d2⟩)
  · obtain ⟨pre, k, post, hfh, hres⟩ := hB hnd hadm
    obtain ⟨hmem, ⟨hka, hkd⟩, hmax⟩ := firstHighest_max _ keys pre k post hfh
    have hall : ∀ k1 ∈ keys, inPassFilter cuts k1 → k1.currPass ≤ k.currPass := by
      intro k1 h1 a1
      rcases hbool k1 with d1 | d1
      · exact absurd ⟨k1, h1, a1, d1⟩ hnd
      · exact hmax k1 h1 ⟨a1, d1⟩
    exact ⟨k, hmem, hka, hres, fun h => absurd h hnd, fun _ => ⟨hkd, hall⟩, fun _ => hall⟩

/-- Witness of C2: a non-default key of pass 3 and a default key of pass 2. -/
theorem C2_fallback_max_within_slot_witness :
    ∃ k ∈ [defaultKey 2 "d", runKey 3 "a"], inPassFilter allowCuts k ∧
      ReadParamFromOADB allowCuts (oadbOf [defaultKey 2 "d", runKey 3 "a"]) 5 (-1)
        = Except.ok (fallbackResult allowCuts 5 (-1) k) ∧
      ((∃ k1 ∈ [defaultKey 2 "d", runKey 3 "a"],
          inPassFilter allowCuts k1 ∧ isDefaultFor k1 5 = false) →
        isDefaultFor k 5 = false ∧
        ∀ k1 ∈ [defaultKey 2 "d", runKey 3 "a"], inPassFilter allowCuts k1 →
          isDefaultFor k1 5 = false → k1.currPass ≤ k.currPass) ∧
      ((¬ ∃ k1 ∈ [defaultKey 2 "d", runKey 3 "a"],
          inPassFilter allowCuts k1 ∧ isDefaultFor k1 5 = false) →
        isDefaultFor k 5 = true ∧
        ∀ k1 ∈ [defaultKey 2 "d", runKey 3 "a"], inPassFilter allowCuts k1 →
          k1.currPass ≤ k.currPass) ∧
      ((∀ k1 ∈ [defaultKey 2 "d", runKey 3 "a"], inPassFilter allowCuts k1 →
          isDefaultFor k1 5 = true →
          ∃ k2 ∈ [defaultKey 2 "d", runKey 3 "a"],
            inPassFilter allowCuts k2 ∧ isDefaultFor k2 5 = false ∧ k1.currPass ≤ k2.currPass) →
        ∀ k1 ∈ [defaultKey 2 "d", runKey 3 "a"], inPassFilter allowCuts k1 →
          k1.currPass ≤ k.currPass) :=
  C2_fallback_max_within_slot allowCuts (oadbOf [defaultKey 2 "d", runKey 3 "a"]) 5 (-1)
    [defaultKey 2 "d", runKey 3 "a"] rfl rfl (by decide) (by decide)
    ⟨runKey 3 "a", by simp, by decide⟩

/-- Counterexample to C2 as stated: with a non-default key of pass 1 and a default key of
pass 2, no exact match and default parameters allowed, resolution returns the non-default
key of pass 1, not the inPassFilter key of maximum pass. -/
theorem C2_counterexample :
    allowCuts.fAllowDefaultParams = true ∧
    (∀ k ∈ [runKey 1 "a", defaultKey 2 "b"], ¬ exactMatch allowCuts 5 (-1) k) ∧
    inPassFilter allowCuts (defaultKey 2 "b") ∧
    ReadParamFromOADB allowCuts (oadbOf [runKey 1 "a", defaultKey 2 "b"]) 5 (-1)
      = Except.ok (fallbackResult allowCuts 5 (-1) (runKey 1 "a")) ∧
    (runKey 1 "a").currPass < (defaultKey 2 "b").currPass :=
  ⟨rfl, by decide, by decide, rfl, by decide⟩

/-- C3 (amended): with no exact match, default parameters allowed and all inPassFilter passes
above the initial slot value -999: if at least one inPassFilter key is non-default, resolution
returns the record of the first-encountered non-default key having the highest pass among
the inPassFilter non-default keys, whatever the passes of the default keys; otherwise, if at
least one key is inPassFilter, it returns the first-encountered default key having the highest
pass; in both cases the resolved pass is the pass of the returned key and the fallback
warning is emitted. -/
theorem C3_fallback_prefers_non_default (cuts : AliMuonTrackCuts F) (oadb : OADB F)
    (r p : Int) (keys : List (OADBKey F)) (hallow : cuts.fAllowDefaultParams = true)
    (hfile : oadb.file cuts.fIsMC = some keys)
    (hno : ∀ k ∈ keys, ¬ exactMatch cuts r p k)
    (hsent : ∀ k ∈ keys, inPassFilter cuts k → -999 < k.currPass) :
    ((∃ k ∈ keys, inPassFilter cuts k ∧ isDefaultFor k r = false) →
      ∃ pre k post,
        firstHighest (fun k => inPassFilter cuts k ∧ isDefaultFor k r = false) keys pre k post ∧
        ReadParamFromOADB cuts oadb r p
          = Except.ok
              { cuts := { cuts with fOADBParam := k.container.GetObject r }, ret := true,
                log := [LogMsg.fallbackWarning r p (k.container.GetObject r).GetName k.currPass,
                        LogMsg.paramInfo r p (k.container.GetObject r).GetName k.currPass] }) ∧
    ((¬ ∃ k ∈ keys, inPassFilter cuts k ∧ isDefaultFor k r = false) →
      (∃ k ∈ keys, inPassFilter cuts k) →
      ∃ pre k post,
        firstHighest (fun k => inPassFilter cuts k ∧ isDefaultFor k r = true) keys pre k post ∧
        ReadParamFromOADB cuts oadb r p
          = Except.ok
              { cuts := { cuts with fOADBParam := k.container.GetObject r }, ret := true,
                log := [LogMsg.fallbackWarning r p (k.container.GetObject r).GetName k.currPass,
                        LogMsg.paramInfo r p (k.container.GetObject r).GetName k.currPass] }) :=
  read_fallback cuts oadb r p keys hallow hfile hno hsent

/-- Witness of C3: two non-default keys of the same highest pass 3 after a default key of
pass 7; the hypotheses hold and the first non-default key of pass 3 is returned. -/
theorem C3_fallback_prefers_non_default_witness :
    (∃ k ∈ [defaultKey 7 "d", runKey 3 "a", runKey 3 "b"],
        inPassFilter allowCuts k ∧ isDefaultFor k 5 = false) ∧
    ∃ pre k post,
      firstHighest (fun k => inPassFilter allowCuts k ∧ isDefaultFor k 5 = false)
        [defaultKey 7 "d", runKey 3 "a", runKey 3 "b"] pre k post ∧
      ReadParamFromOADB allowCuts (oadbOf [defaultKey 7 "d", runKey 3 "a", runKey 3 "b"]) 5 (-1)
        = Except.ok
            { cuts := { allowCuts with fOADBParam := k.container.GetObject 5 }, ret := true,
              log := [LogMsg.fallbackWarning 5 (-1) (k.container.GetObject 5).GetName k.currPass,
                      LogMsg.paramInfo 5 (-1) (k.container.GetObject 5).GetName k.currPass] } :=
  ⟨⟨runKey 3 "a", by simp, by decide⟩,
   (C3_fallback_prefers_non_default allowCuts
      (oadbOf [defaultKey 7 "d", runKey 3 "a", runKey 3 "b"]) 5 (-1)
      [defaultKey 7 "d", runKey 3 "a", runKey 3 "b"] rfl rfl (by decide) (by decide)).1
     ⟨runKey 3 "a", by simp, by decide⟩⟩

/-- Counterexample to C3 as stated: an inPassFilter non-default key of pass -1000 never fills
the non-default slot (its pass is not above the initial value -999), so with a default key
of pass 2 also present the default record is returned although a non-default key is
inPassFilter. -/
theorem C3_counterexample :
    allowCuts.fAllowDefaultParams = true ∧
    (∀ k ∈ [runKey (-1000) "a", defaultKey 2 "b"], ¬ exactMatch allowCuts 5 (-1) k) ∧
    (inPassFilter allowCuts (runKey (-1000) "a") ∧ isDefaultFor (runKey (-1000) "a") 5 = false) ∧
    ReadParamFromOADB allowCuts (oadbOf [runKey (-1000) "a", defaultKey 2 "b"]) 5 (-1)
      = Except.ok (fallbackResult allowCuts 5 (-1) (defaultKey 2 "b")) ∧
    (fallbackResult allowCuts 5 (-1) (defaultKey 2 "b")).cuts.fOADBParam.GetName = "b" ∧
    ((runKey (-1000) "a").container.GetObject 5).GetName = "a" :=
  ⟨rfl, by decide, by decide, rfl, rfl, rfl⟩

/-- C4: when no inPassFilter key is non-default with pass equal to the requested pass (whatever
the key list, and also when the file cannot be opened), `ReadParamFromOADB` with
`fAllowDefaultParams = false` ends in a fatal error. -/
theorem C4_no_exact_no_fallback_fatal (cuts : AliMuonTrackCuts F) (oadb : OADB F) (r p : Int)
    (hallow : cuts.fAllowDefaultParams = false)
    (hno : ∀ keys, oadb.file cuts.fIsMC = some keys → ∀ k ∈ keys, ¬ exactMatch cuts r p k) :
    ∃ e, ReadParamFromOADB cuts oadb r p = Except.error e := by
  by_cases hg : p < 0 ∧ ¬ cuts.fAllowDefaultParams = true
  · refine ⟨Fatal.passNotSpecified, ?_⟩
    unfold ReadParamFromOADB
    rw [if_pos hg]
  · unfold ReadParamFromOADB
    rw [if_neg hg]
    cases hfile : oadb.file cuts.fIsMC with
    | none => exact ⟨Fatal.fileNotFound, rfl⟩
    | some keys =>
      obtain ⟨e1, -, -, -, -⟩ := scanKeys_noExact cuts r p keys (hno keys hfile) ScanVars.init
      have e1n : (scanKeys cuts.fPassNumber r p keys ScanVars.init).runMatchParams = none := by
        rw [e1]; rfl
      cases hc : (scanKeys cuts.fPassNumber r p keys ScanVars.init).oadbContainer with
      | none => exact ⟨Fatal.passNotFound, by simp only [hc]⟩
      | some c => exact ⟨Fatal.runNotFound, by simp [hc, e1n, hallow]⟩

/-- Witness of C4: requested pass 1, only a default key of pass 1 and a non-default key of
pass 2 are available. -/
theorem C4_no_exact_no_fallback_fatal_witness :
    ∃ e, ReadParamFromOADB cuts0 (oadbOf [defaultKey 1 "d", runKey 2 "a"]) 5 1
      = Except.error e :=
  C4_no_exact_no_fallback_fatal cuts0 (oadbOf [defaultKey 1 "d", runKey 2 "a"]) 5 1 rfl
    (by
      intro keys hk
      have hkeys : [defaultKey 1 "d", runKey 2 "a"] = keys := Option.some.inj hk
      subst hkeys
      decide)

/-- C5 (amended): if the key list holds an exact match and all its exact matches return the
same record for the run, then resolving over any permutation of the list gives the same
outcome (same active record, same diagnostics) as resolving over the original order. -/
theorem C5_exact_match_perm (cuts : AliMuonTrackCuts F) (oadb oadb2 : OADB F) (r p : Int)
    (keys keys2 : List (OADBKey F))
    (hfile : oadb.file cuts.fIsMC = some keys) (hfile2 : oadb2.file cuts.fIsMC = some keys2)
    (hperm : keys.Perm keys2)
    (hex : ∃ k ∈ keys, exactMatch cuts r p k)
    (hsame : ∀ k1 ∈ keys, ∀ k2 ∈ keys, exactMatch cuts r p k1 → exactMatch cuts r p k2 →
      k1.container.GetObject r = k2.container.GetObject r) :
    ReadParamFromOADB cuts oadb r p = ReadParamFromOADB cuts oadb2 r p := by
  by_cases hg : p < 0 ∧ ¬ cuts.fAllowDefaultParams = true
  · unfold ReadParamFromOADB
    rw [if_pos hg, if_pos hg]
  · have hp : 0 ≤ p ∨ cuts.fAllowDefaultParams = true := by
      by_cases h0 : 0 ≤ p
      · exact Or.inl h0
      · right
        by_contra hc
        exact hg ⟨lt_of_not_le h0, hc⟩
    obtain ⟨k0, hk0, hx0⟩ := hex
    obtain ⟨pre, k, post, hl, hk, hpre⟩ :=
      exists_first_split (exactMatch cuts r p) keys ⟨k0, hk0, hx0⟩
    obtain ⟨pre2, k2, post2, hl2, hk2, hpre2⟩ :=
      exists_first_split (exactMatch cuts r p) keys2 ⟨k0, hperm.mem_iff.1 hk0, hx0⟩
    have hkm : k ∈ keys := by simp [hl]
    have hk2m : k2 ∈ keys := hperm.mem_iff.2 (by simp [hl2])
    have hobj := hsame k hkm k2 hk2m hk hk2
    have hpass : k.currPass = k2.currPass := hk.2.2.trans hk2.2.2.symm
    rw [read_exact cuts oadb r p pre k post hp (hl ▸ hfile) hpre hk,
      read_exact cuts oadb2 r p pre2 k2 post2 hp (hl2 ▸ hfile2) hpre2 hk2]
    simp [exactResult, hobj, hpass]

/-- Witness of C5: one exact match among three keys, the list reversed. -/
theorem C5_exact_match_perm_witness :
    ReadParamFromOADB cuts0 (oadbOf [defaultKey 1 "d", runKey 1 "a", runKey 2 "b"]) 5 1
      = ReadParamFromOADB cuts0 (oadbOf [runKey 2 "b", runKey 1 "a", defaultKey 1 "d"]) 5 1 :=
  C5_exact_match_perm cuts0 (oadbOf [defaultKey 1 "d", runKey 1 "a", runKey 2 "b"])
    (oadbOf [runKey 2 "b", runKey 1 "a", defaultKey 1 "d"]) 5 1
    [defaultKey 1 "d", runKey 1 "a", runKey 2 "b"] [runKey 2 "b", runKey 1 "a", defaultKey 1 "d"]
    rfl rfl (List.reverse_perm [runKey 2 "b", runKey 1 "a", defaultKey 1 "d"])
    ⟨runKey 1 "a", by simp, by decide⟩
    (by
      intro k1 h1 k2 h2 x1 x2
      simp only [List.mem_cons, List.mem_singleton, List.not_mem_nil, or_false] at h1 h2
      rcases h1 with rfl | rfl | rfl <;> rcases h2 with rfl | rfl | rfl <;>
        first
          | rfl
          | exact absurd x1 (by decide)
          | exact absurd x2 (by decide))

/-- Counterexample to C5 as stated: two exact matches for run 5, pass 1 with different
records; the list and its swap resolve to different active records. -/
theorem C5_counterexample :
    List.Perm [runKey 1 "a", runKey 1 "b"] [runKey 1 "b", runKey 1 "a"] ∧
    exactMatch cuts0 5 1 (runKey 1 "a") ∧
    ReadParamFromOADB cuts0 (oadbOf [runKey 1 "a", runKey 1 "b"]) 5 1
      = Except.ok (exactResult cuts0 5 1 (runKey 1 "a")) ∧
    ReadParamFromOADB cuts0 (oadbOf [runKey 1 "b", runKey 1 "a"]) 5 1
      = Except.ok (exactResult cuts0 5 1 (runKey 1 "b")) ∧
    (exactResult cuts0 5 1 (runKey 1 "a")).cuts.fOADBParam
      ≠ (exactResult cuts0 5 1 (runKey 1 "b")).cuts.fOADBParam :=
  ⟨List.Perm.swap _ _ _, by decide, rfl, rfl,
   fun h => absurd (congrArg AliOADBMuonTrackCutsParam.GetName h) (by decide)⟩

/-! ## Custom override: C6, C7 -/

theorem setRun_of_custom (cuts : AliMuonTrackCuts F) (oadb : OADB F)
    (eventHandler : AliInputEventHandler) (h : cuts.fUseCustomParam = true) :
    SetRun cuts oadb eventHandler = Except.ok { cuts := cuts, ret := false, log := [] } := by
  unfold SetRun
  rw [if_pos h]

/-- C6: a successful `SetCustomParamFromRun` leaves the override flag set, and in the state
it leaves every call of `SetRun` (any storage, any event) returns without fatal error,
emits no diagnostic (no resolution is performed) and leaves the whole object unchanged:
active parameters, pass number, override flag and every other member. -/
theorem C6_custom_override_freezes_state (cuts : AliMuonTrackCuts F) (oadb : OADB F)
    (r p : Int) (cuts1 : AliMuonTrackCuts F) (log : List LogMsg)
    (h : SetCustomParamFromRun cuts oadb r p = Except.ok (cuts1, log)) :
    cuts1.fUseCustomParam = true ∧
    ∀ (oadb2 : OADB F) (eventHandler : AliInputEventHandler),
      ∃ ret, SetRun cuts1 oadb2 eventHandler
        = Except.ok { cuts := cuts1, ret := ret, log := [] } := by
  have hflag : cuts1.fUseCustomParam = true := by
    unfold SetCustomParamFromRun at h
    cases hr : ReadParamFromOADB { cuts with fPassNumber := p } oadb r p with
    | error e => simp [hr] at h
    | ok res =>
      simp only [hr] at h
      have h1 := congrArg Prod.fst (Except.ok.inj h)
      simp only at h1
      rw [← h1]
  exact ⟨hflag, fun oadb2 eventHandler =>
    ⟨false, setRun_of_custom cuts1 oadb2 eventHandler hflag⟩⟩

/-- Witness of C6: the override is latched from run 5, pass 1; a later `SetRun` on storage
that would be fatal for a resolution (no key at all) changes nothing. -/
theorem C6_custom_override_freezes_state_witness :
    SetCustomParamFromRun cuts0 (oadbOf [runKey 1 "a"]) 5 1
      = Except.ok (customCuts, [LogMsg.paramInfo 5 1 "a" 1, LogMsg.setRunDisabledWarning]) ∧
    ∃ ret, SetRun customCuts (oadbOf []) { GetRunNumber := 7, GetPassNumber := 2 }
      = Except.ok { cuts := customCuts, ret := ret, log := [] } :=
  ⟨rfl, (C6_custom_override_freezes_state cuts0 (oadbOf [runKey 1 "a"]) 5 1 customCuts
    [LogMsg.paramInfo 5 1 "a" 1, LogMsg.setRunDisabledWarning] rfl).2 (oadbOf [])
    { GetRunNumber := 7, GetPassNumber := 2 }⟩

/-- C7 (amended): in every state with the custom override latched, `SetRun` returns `kFALSE`
without fatal error, without diagnostics and without changing the object. -/
theorem C7_setRun_after_override_returns_false (cuts : AliMuonTrackCuts F) (oadb : OADB F)
    (eventHandler : AliInputEventHandler) (h : cuts.fUseCustomParam = true) :
    SetRun cuts oadb eventHandler = Except.ok { cuts := cuts, ret := false, log := [] } := by
  unfold SetRun
  rw [if_pos h]

/-- Witness of C7. -/
theorem C7_setRun_after_override_returns_false_witness :
    SetRun customCuts (oadbOf [runKey 1 "a"]) { GetRunNumber := 5, GetPassNumber := 1 }
      = Except.ok { cuts := customCuts, ret := false, log := [] } :=
  C7_setRun_after_override_returns_false customCuts (oadbOf [runKey 1 "a"])
    { GetRunNumber := 5, GetPassNumber := 1 } rfl

/-- Counterexample to C7 as stated: with the override latched, `SetRun` returns `kFALSE`,
not `kTRUE`. -/
theorem C7_counterexample :
    customCuts.fUseCustomParam = true ∧
    ∃ res, SetRun customCuts (oadbOf [runKey 1 "a"]) { GetRunNumber := 5, GetPassNumber := 1 }
        = Except.ok res ∧ res.ret = false :=
  ⟨rfl, _, rfl, rfl⟩

end Resolution

/-! ## Selection mask: C8 to C10 -/

section Selection

variable {F : Type} [LinearOrderedField F]

theorem matchLoop_eq_or (cuts : AliMuonTrackCuts F) (matchTrig : Int) (pt : Dbl F)
    (m : Nat) :
    matchLoop cuts matchTrig pt [(0, kMuMatchApt), (1, kMuMatchLpt), (2, kMuMatchHpt)] m
      = m ||| matchBits cuts matchTrig pt := by
  simp only [matchBits, matchLoop]
  split_ifs <;> simp [Nat.lor_assoc]

theorem matchBits_cases (cuts : AliMuonTrackCuts F) (matchTrig : Int) (pt : Dbl F) :
    matchBits cuts matchTrig pt = 0 ∨ matchBits cuts matchTrig pt = 8 ∨
    matchBits cuts matchTrig pt = 24 ∨ matchBits cuts matchTrig pt = 56 := by
  simp only [matchBits, matchLoop]
  split_ifs <;> decide

theorem hpt_bit_of_matchBits (sqrt : F → F) (cuts : AliMuonTrackCuts F)
    (track : AliVParticle F) (hm : track.IsMuonTrack = true)
    (hb : matchBits cuts track.GetMatchTrigger track.Pt = 56) :
    GetSelectionMask sqrt cuts track &&& kMuMatchHpt ≠ 0 := by
  simp only [GetSelectionMask, hm, not_true_eq_false, if_false, matchLoop_eq_or, hb]
  split_ifs <;> decide

/-- C8: `IsSelected` is true exactly when every bit of the filter mask is set in the
selection mask; hence two evaluations whose selection masks agree on the bits of the filter
mask give the same answer, and with the empty filter mask every track is accepted. -/
theorem C8_accept_is_mask_containment (sqrt : F → F) (cuts : AliMuonTrackCuts F)
    (track : AliVParticle F) :
    (IsSelected sqrt cuts track = true ↔
      GetSelectionMask sqrt cuts track &&& GetFilterMask cuts = GetFilterMask cuts) ∧
    (∀ (cuts2 : AliMuonTrackCuts F) (track2 : AliVParticle F),
      GetFilterMask cuts2 = GetFilterMask cuts →
      GetSelectionMask sqrt cuts2 track2 &&& GetFilterMask cuts
        = GetSelectionMask sqrt cuts track &&& GetFilterMask cuts →
      IsSelected sqrt cuts2 track2 = IsSelected sqrt cuts track) ∧
    (GetFilterMask cuts = 0 → IsSelected sqrt cuts track = true) := by
  refine ⟨by simp [IsSelected], ?_, ?_⟩
  · intro cuts2 track2 hf hm
    simp only [IsSelected, hf, hm]
  · intro h0
    simp [IsSelected, h0]

/-- Witness of C8: the criterion for a muon under the default filter mask, and a non-muon
track accepted under the empty filter mask. -/
theorem C8_accept_is_mask_containment_witness :
    (IsSelected qsqrt cuts0 muonTrack = true ↔
      GetSelectionMask qsqrt cuts0 muonTrack &&& GetFilterMask cuts0 = GetFilterMask cuts0) ∧
    (IsSelected qsqrt (SetFilterMask cuts0 0) hadronTrack = true) :=
  ⟨(C8_accept_is_mask_containment qsqrt cuts0 muonTrack).1,
   (C8_accept_is_mask_containment qsqrt (SetFilterMask cuts0 0) hadronTrack).2.2 rfl⟩

/-- C9: a track failing the muon test has selection mask 0 for every parameter record and
sharp-pt setting, and is rejected by every non-empty filter mask. -/
theorem C9_non_muon_rejected (sqrt : F → F) (cuts : AliMuonTrackCuts F)
    (track : AliVParticle F) (h : track.IsMuonTrack = false) :
    GetSelectionMask sqrt cuts track = 0 ∧
    (GetFilterMask cuts ≠ 0 → IsSelected sqrt cuts track = false) := by
  have hm : GetSelectionMask sqrt cuts track = 0 := by
    simp [GetSelectionMask, h]
  refine ⟨hm, ?_⟩
  intro hf
  simp only [IsSelected, hm, Nat.zero_and, decide_eq_false_iff_not]
  exact fun h0 => hf h0.symm

/-- Witness of C9: the non-muon track under the default filter mask. -/
theorem C9_non_muon_rejected_witness :
    GetSelectionMask qsqrt cuts0 hadronTrack = 0 ∧ IsSelected qsqrt cuts0 hadronTrack = false :=
  ⟨(C9_non_muon_rejected qsqrt cuts0 hadronTrack rfl).1,
   (C9_non_muon_rejected qsqrt cuts0 hadronTrack rfl).2 (by decide)⟩

/-- C10: in every selection mask the `MatchHpt` bit implies the `MatchLpt` bit and the
`MatchLpt` bit implies the `MatchApt` bit, whatever the parameter record (ordered thresholds
or not) and the sharp-pt setting. -/
theorem C10_match_ladder_monotone (sqrt : F → F) (cuts : AliMuonTrackCuts F)
    (track : AliVParticle F) :
    (GetSelectionMask sqrt cuts track &&& kMuMatchHpt ≠ 0 →
      GetSelectionMask sqrt cuts track &&& kMuMatchLpt ≠ 0) ∧
    (GetSelectionMask sqrt cuts track &&& kMuMatchLpt ≠ 0 →
      GetSelectionMask sqrt cuts track &&& kMuMatchApt ≠ 0) := by
  by_cases hm : track.IsMuonTrack = true
  · simp only [GetSelectionMask, hm, not_true_eq_false, if_false, matchLoop_eq_or]
    rcases matchBits_cases cuts track.GetMatchTrigger track.Pt with h | h | h | h <;>
      rw [h] <;> split_ifs <;> decide
  · simp [GetSelectionMask, hm]

/-- Witness of C10: a muon matching the high-pt trigger carries all three match bits. -/
theorem C10_match_ladder_monotone_witness :
    GetSelectionMask qsqrt cuts0 muonTrack &&& kMuMatchHpt ≠ 0 ∧
    GetSelectionMask qsqrt cuts0 muonTrack &&& kMuMatchLpt ≠ 0 ∧
    GetSelectionMask qsqrt cuts0 muonTrack &&& kMuMatchApt ≠ 0 :=
  have h3 : GetSelectionMask qsqrt cuts0 muonTrack &&& kMuMatchHpt ≠ 0 :=
    hpt_bit_of_matchBits qsqrt cuts0 muonTrack rfl (by decide)
  ⟨h3, (C10_match_ladder_monotone qsqrt cuts0 muonTrack).1 h3,
    (C10_match_ladder_monotone qsqrt cuts0 muonTrack).2
      ((C10_match_ladder_monotone qsqrt cuts0 muonTrack).1 h3)⟩

end Selection

/-! ## Parameter resolution: C15 to C18 -/

section Resolution2

variable {F : Type}

theorem read_none_in_filter (cuts : AliMuonTrackCuts F) (oadb : OADB F) (r p : Int)
    (keys : List (OADBKey F))
    (hg : ¬ (p < 0 ∧ ¬ cuts.fAllowDefaultParams = true))
    (hfile : oadb.file cuts.fIsMC = some keys)
    (hnone : ¬ ∃ k ∈ keys, inPassFilter cuts k) :
    ReadParamFromOADB cuts oadb r p = Except.error Fatal.passNotFound := by
  have hno : ∀ k ∈ keys, ¬ exactMatch cuts r p k :=
    fun k hk hx => hnone ⟨k, hk, hx.1⟩
  obtain ⟨-, -, e3, -, -⟩ := scanKeys_noExact cuts r p keys hno ScanVars.init
  have hc : (scanKeys cuts.fPassNumber r p keys ScanVars.init).oadbContainer = none := by
    cases h : (scanKeys cuts.fPassNumber r p keys ScanVars.init).oadbContainer with
    | none => rfl
    | some c =>
      have h1 := e3.1 (by simp [h])
      rcases h1 with h1 | h1
      · exact absurd h1 (by simp [ScanVars.init])
      · exact absurd h1 hnone
  unfold ReadParamFromOADB
  rw [if_neg hg]
  simp only [hfile, hc]

theorem read_fatal_of_noExact (cuts : AliMuonTrackCuts F) (oadb : OADB F) (r p : Int)
    (keys : List (OADBKey F)) (hallow : cuts.fAllowDefaultParams = false)
    (hfile : oadb.file cuts.fIsMC = some keys)
    (hno : ∀ k ∈ keys, ¬ exactMatch cuts r p k) :
    ∃ e, ReadParamFromOADB cuts oadb r p = Except.error e := by
  by_cases hg : p < 0 ∧ ¬ cuts.fAllowDefaultParams = true
  · refine ⟨Fatal.passNotSpecified, ?_⟩
    unfold ReadParamFromOADB
    rw [if_pos hg]
  · unfold ReadParamFromOADB
    rw [if_neg hg]
    obtain ⟨e1, -, -, -, -⟩ := scanKeys_noExact cuts r p keys hno ScanVars.init
    have e1n : (scanKeys cuts.fPassNumber r p keys ScanVars.init).runMatchParams = none := by
      rw [e1]; rfl
    cases hc : (scanKeys cuts.fPassNumber r p keys ScanVars.init).oadbContainer with
    | none => exact ⟨Fatal.passNotFound, by simp only [hfile, hc]⟩
    | some c => exact ⟨Fatal.runNotFound, by simp [hfile, hc, e1n, hallow]⟩

theorem slots_filled (cuts : AliMuonTrackCuts F) (r p : Int) (keys : List (OADBKey F))
    (hno : ∀ k ∈ keys, ¬ exactMatch cuts r p k)
    (hsent : ∀ k ∈ keys, inPassFilter cuts k → -999 < k.currPass)
    (hadm : ∃ k ∈ keys, inPassFilter cuts k) :
    (scanKeys cuts.fPassNumber r p keys ScanVars.init).lastMatchParams.isSome = true ∨
    (scanKeys cuts.fPassNumber r p keys ScanVars.init).lastDefaultParams.isSome = true := by
  obtain ⟨-, -, -, e4, e5⟩ := scanKeys_noExact cuts r p keys hno ScanVars.init
  have e4n : ((scanKeys cuts.fPassNumber r p keys ScanVars.init).lastMatchPass,
      (scanKeys cuts.fPassNumber r p keys ScanVars.init).lastMatchParams)
      = bestSlot (fun k => inPassFilter cuts k ∧ isDefaultFor k r = false) r keys (-999, none) := e4
  have e5n : ((scanKeys cuts.fPassNumber r p keys ScanVars.init).lastDefaultPass,
      (scanKeys cuts.fPassNumber r p keys ScanVars.init).lastDefaultParams)
      = bestSlot (fun k => inPassFilter cuts k ∧ isDefaultFor k r = true) r keys (-999, none) := e5
  obtain ⟨k0, hk0, ha0⟩ := hadm
  cases hd : isDefaultFor k0 r
  · left
    rcases bestSlot_spec (fun k => inPassFilter cuts k ∧ isDefaultFor k r = false) r keys
      (-999, none) with ⟨-, hle⟩ | ⟨pre, k, post, -, -, e⟩
    · exact absurd (hle k0 hk0 ⟨ha0, hd⟩) (not_le.2 (hsent k0 hk0 ha0))
    · rw [e] at e4n
      rw [(Prod.mk.inj e4n).2]
      rfl
  · right
    rcases bestSlot_spec (fun k => inPassFilter cuts k ∧ isDefaultFor k r = true) r keys
      (-999, none) with ⟨-, hle⟩ | ⟨pre, k, post, -, -, e⟩
    · exact absurd (hle k0 hk0 ⟨ha0, hd⟩) (not_le.2 (hsent k0 hk0 ha0))
    · rw [e] at e5n
      rw [(Prod.mk.inj e5n).2]
      rfl

theorem scanKeys_unfiltered_last (cuts : AliMuonTrackCuts F) (r p : Int)
    (hneg : cuts.fPassNumber < 0) (pre : List (OADBKey F)) (key : OADBKey F)
    (hpre : ∀ k1 ∈ pre, ¬ exactMatch cuts r p k1) (v : ScanVars F) :
    (scanKeys cuts.fPassNumber r p (pre ++ [key]) v).oadbContainer = some key.container := by
  have hf : ∀ k : OADBKey F, ¬ (cuts.fPassNumber ≥ 0 ∧ k.currPass ≠ cuts.fPassNumber) :=
    fun k h => absurd h.1 (not_le.2 hneg)
  induction pre generalizing v with
  | nil =>
    simp only [List.nil_append, scanKeys]
    rw [if_neg (hf key)]
    split_ifs <;> rfl
  | cons a pre ih =>
    have hpre1 : ∀ k1 ∈ pre, ¬ exactMatch cuts r p k1 :=
      fun k1 h1 => hpre k1 (List.mem_cons_of_mem _ h1)
    have ha : ¬ exactMatch cuts r p a := hpre a (List.mem_cons_self _ _)
    simp only [List.cons_append, scanKeys]
    rw [if_neg (hf a)]
    split_ifs with h2 h3 h4 h5
    · exact ih hpre1 _
    · exact ih hpre1 _
    · exact absurd ⟨hf a, by simpa [isDefaultFor] using h2, h4⟩ ha
    · exact ih hpre1 _
    · exact ih hpre1 _

theorem lastMatch_stays_none (cuts : AliMuonTrackCuts F) (r : Int)
    (hp : 0 ≤ cuts.fPassNumber) (keys : List (OADBKey F)) (v : ScanVars F)
    (hv : v.lastMatchParams = none) :
    (scanKeys cuts.fPassNumber r cuts.fPassNumber keys v).lastMatchParams = none := by
  induction keys generalizing v with
  | nil => simpa [scanKeys] using hv
  | cons a keys ih =>
    simp only [scanKeys]
    split_ifs with h1 h2 h3 h4 h5
    · exact ih v hv
    · exact ih _ hv
    · exact ih _ hv
    · exact hv
    · exact absurd ⟨hp, h4⟩ h1
    · exact ih _ hv

end Resolution2

section Resolution3

variable {F : Type}

/-- C15: with a negative requested pass and `fAllowDefaultParams = false`,
`ReadParamFromOADB` is fatal ("Pass number not specified!") whatever the storage, so before
any file or key is looked at; with an unspecified stored pass (`fPassNumber < 0`) the pass
filter lets every key through: each key reached by the loop has its container fetched, and
with default parameters allowed a non-empty key list never ends in "Requested pass not
found". -/
theorem C15_unspecified_pass (cuts : AliMuonTrackCuts F) (oadb : OADB F) (r p : Int) :
    (p < 0 → cuts.fAllowDefaultParams = false →
      ReadParamFromOADB cuts oadb r p = Except.error Fatal.passNotSpecified) ∧
    (cuts.fPassNumber < 0 →
      (∀ key : OADBKey F, inPassFilter cuts key) ∧
      (∀ (pre : List (OADBKey F)) (key : OADBKey F) (v : ScanVars F),
        (∀ k1 ∈ pre, ¬ exactMatch cuts r p k1) →
        (scanKeys cuts.fPassNumber r p (pre ++ [key]) v).oadbContainer
          = some key.container) ∧
      (cuts.fAllowDefaultParams = true → ∀ keys : List (OADBKey F),
        oadb.file cuts.fIsMC = some keys → keys ≠ [] →
        ReadParamFromOADB cuts oadb r p ≠ Except.error Fatal.passNotFound)) := by
  constructor
  · intro hp hallow
    unfold ReadParamFromOADB
    rw [if_pos ⟨hp, by simp [hallow]⟩]
  · intro hneg
    have hall : ∀ key : OADBKey F, inPassFilter cuts key :=
      fun key h => absurd h.1 (not_le.2 hneg)
    refine ⟨hall, fun pre key v hpre => scanKeys_unfiltered_last cuts r p hneg pre key hpre v, ?_⟩
    intro hallow keys hfile hne
    obtain ⟨k0, hk0⟩ := List.exists_mem_of_ne_nil keys hne
    have hg : ¬ (p < 0 ∧ ¬ cuts.fAllowDefaultParams = true) := fun h => h.2 hallow
    by_cases hex : ∃ k ∈ keys, exactMatch cuts r p k
    · obtain ⟨pre, k, post, hl, hk, hpre⟩ := exists_first_split (exactMatch cuts r p) keys hex
      rw [read_exact cuts oadb r p pre k post (Or.inr hallow) (hl ▸ hfile) hpre hk]
      exact fun h => Except.noConfusion h
    · have hno : ∀ k ∈ keys, ¬ exactMatch cuts r p k := fun k hk hx => hex ⟨k, hk, hx⟩
      obtain ⟨-, -, e3, -, -⟩ := scanKeys_noExact cuts r p keys hno ScanVars.init
      obtain ⟨c, hc⟩ := Option.isSome_iff_exists.1 (e3.2 (Or.inr ⟨k0, hk0, hall k0⟩))
      rw [read_noExact_vars cuts oadb r p keys hallow hfile hno c hc]
      split <;> simp

/-- Witness of C15: the freshly constructed object (pass unspecified, default parameters
not allowed) asked for pass -1 on storage that holds a key of pass -1. -/
theorem C15_unspecified_pass_witness :
    ReadParamFromOADB cuts0 (oadbOf [runKey (-1) "a"]) 5 (-1)
      = Except.error Fatal.passNotSpecified ∧
    (∀ key : OADBKey ℚ, inPassFilter allowCuts key) ∧
    ReadParamFromOADB allowCuts (oadbOf [runKey 3 "a"]) 5 (-1)
      ≠ Except.error Fatal.passNotFound :=
  ⟨(C15_unspecified_pass cuts0 (oadbOf [runKey (-1) "a"]) 5 (-1)).1 (by decide) rfl,
   ((C15_unspecified_pass allowCuts (oadbOf [runKey 3 "a"]) 5 (-1)).2 (by decide)).1,
   ((C15_unspecified_pass allowCuts (oadbOf [runKey 3 "a"]) 5 (-1)).2 (by decide)).2.2 rfl
     [runKey 3 "a"] rfl (by simp)⟩

/-- C16: `CustomParam` returns the active parameter record exactly when the custom override
flag is set and the null pointer otherwise; it is null on an object just built by the
default or the named constructor, non-null after a successful `SetCustomParamFromRun`, and
the call leaves the object unchanged. -/
theorem C16_custom_param_accessor (cuts : AliMuonTrackCuts F) :
    ((CustomParam cuts).ptr = some cuts.fOADBParam ↔ cuts.fUseCustomParam = true) ∧
    ((CustomParam cuts).ptr = none ↔ cuts.fUseCustomParam = false) ∧
    (∀ param : AliOADBMuonTrackCutsParam F,
      (CustomParam (ctorDefault param)).ptr = none ∧
      (CustomParam (ctorNamed param)).ptr = none) ∧
    (∀ (oadb : OADB F) (r p : Int) (cuts1 : AliMuonTrackCuts F) (log : List LogMsg),
      SetCustomParamFromRun cuts oadb r p = Except.ok (cuts1, log) →
      (CustomParam cuts1).ptr = some cuts1.fOADBParam) ∧
    (CustomParam cuts).cuts = cuts := by
  have hptr : ∀ c : AliMuonTrackCuts F, c.fUseCustomParam = true →
      (CustomParam c).ptr = some c.fOADBParam := by
    intro c hc
    simp [CustomParam, hc]
  have hnull : ∀ c : AliMuonTrackCuts F, c.fUseCustomParam = false →
      (CustomParam c).ptr = none := by
    intro c hc
    simp [CustomParam, hc]
  refine ⟨?_, ?_, ?_, ?_, ?_⟩
  · constructor
    · intro h
      cases hf : cuts.fUseCustomParam
      · rw [hnull cuts hf] at h
        cases h
      · rfl
    · exact hptr cuts
  · constructor
    · intro h
      cases hf : cuts.fUseCustomParam
      · rfl
      · rw [hptr cuts hf] at h
        cases h
    · exact hnull cuts
  · intro param
    exact ⟨hnull _ rfl, hnull _ rfl⟩
  · intro oadb r p cuts1 log h
    apply hptr
    unfold SetCustomParamFromRun at h
    cases hr : ReadParamFromOADB { cuts with fPassNumber := p } oadb r p with
    | error e => simp [hr] at h
    | ok res =>
      simp only [hr] at h
      have h1 := congrArg Prod.fst (Except.ok.inj h)
      simp only at h1
      rw [← h1]
  · unfold CustomParam
    split_ifs <;> rfl

/-- Witness of C16: null on the freshly constructed object, the active record after the
override has been latched from run 5, pass 1. -/
theorem C16_custom_param_accessor_witness :
    (CustomParam cuts0).ptr = none ∧
    (CustomParam customCuts).ptr = some (paramSet "a") :=
  ⟨((C16_custom_param_accessor cuts0).2.1).2 rfl,
   (C16_custom_param_accessor cuts0).2.2.2.1 (oadbOf [runKey 1 "a"]) 5 1 customCuts
     [LogMsg.paramInfo 5 1 "a" 1, LogMsg.setRunDisabledWarning] rfl⟩

/-- C17: with default parameters allowed and all passes of the key list above -999,
`ReadParamFromOADB` is fatal exactly when no key passes the pass filter, and then with
"Requested pass not found"; when some key passes the filter one of the three slots (exact
match, last non-default, last default) is filled and "No parameter found" never occurs. -/
theorem C17_fatal_iff_nothing_in_filter (cuts : AliMuonTrackCuts F) (oadb : OADB F)
    (r p : Int) (keys : List (OADBKey F)) (hallow : cuts.fAllowDefaultParams = true)
    (hfile : oadb.file cuts.fIsMC = some keys)
    (hsent : ∀ k ∈ keys, -999 < k.currPass) :
    ((∃ e, ReadParamFromOADB cuts oadb r p = Except.error e) ↔
      ¬ ∃ k ∈ keys, inPassFilter cuts k) ∧
    ((¬ ∃ k ∈ keys, inPassFilter cuts k) →
      ReadParamFromOADB cuts oadb r p = Except.error Fatal.passNotFound) ∧
    ((∃ k ∈ keys, inPassFilter cuts k) →
      (scanKeys cuts.fPassNumber r p keys ScanVars.init).runMatchParams.isSome = true ∨
      (scanKeys cuts.fPassNumber r p keys ScanVars.init).lastMatchParams.isSome = true ∨
      (scanKeys cuts.fPassNumber r p keys ScanVars.init).lastDefaultParams.isSome = true) ∧
    ReadParamFromOADB cuts oadb r p ≠ Except.error Fatal.noParameterFound := by
  have hg : ¬ (p < 0 ∧ ¬ cuts.fAllowDefaultParams = true) := fun h => h.2 hallow
  have hsent1 : ∀ k ∈ keys, inPassFilter cuts k → -999 < k.currPass :=
    fun k hk _ => hsent k hk
  have hfatal : (¬ ∃ k ∈ keys, inPassFilter cuts k) →
      ReadParamFromOADB cuts oadb r p = Except.error Fatal.passNotFound :=
    fun h => read_none_in_filter cuts oadb r p keys hg hfile h
  have hok : (∃ k ∈ keys, inPassFilter cuts k) →
      ∃ res, ReadParamFromOADB cuts oadb r p = Except.ok res := by
    intro hadm
    by_cases hex : ∃ k ∈ keys, exactMatch cuts r p k
    · obtain ⟨pre, k, post, hl, hk, hpre⟩ := exists_first_split (exactMatch cuts r p) keys hex
      exact ⟨_, read_exact cuts oadb r p pre k post (Or.inr hallow) (hl ▸ hfile) hpre hk⟩
    · have hno : ∀ k ∈ keys, ¬ exactMatch cuts r p k := fun k hk hx => hex ⟨k, hk, hx⟩
      obtain ⟨hA, hB⟩ := read_fallback cuts oadb r p keys hallow hfile hno hsent1
      by_cases hnd : ∃ k ∈ keys, inPassFilter cuts k ∧ isDefaultFor k r = false
      · obtain ⟨_, k, _, _, hres⟩ := hA hnd
        exact ⟨_, hres⟩
      · obtain ⟨_, k, _, _, hres⟩ := hB hnd hadm
        exact ⟨_, hres⟩
  refine ⟨?_, hfatal, ?_, ?_⟩
  · constructor
    · rintro ⟨e, he⟩ hadm
      obtain ⟨res, hres⟩ := hok hadm
      rw [hres] at he
      cases he
    · intro h
      exact ⟨_, hfatal h⟩
  · intro hadm
    by_cases hex : ∃ k ∈ keys, exactMatch cuts r p k
    · obtain ⟨pre, k, post, hl, hk, hpre⟩ := exists_first_split (exactMatch cuts r p) keys hex
      left
      rw [hl, (scanKeys_exact cuts r p pre k post hpre hk ScanVars.init).2.1]
      rfl
    · have hno : ∀ k ∈ keys, ¬ exactMatch cuts r p k := fun k hk hx => hex ⟨k, hk, hx⟩
      right
      exact slots_filled cuts r p keys hno hsent1 hadm
  · by_cases hadm : ∃ k ∈ keys, inPassFilter cuts k
    · obtain ⟨res, hres⟩ := hok hadm
      rw [hres]
      simp
    · rw [hfatal hadm]
      simp

/-- Witness of C17: pass 1 is stored and requested with default parameters allowed; a list
holding only pass 2 is fatal with "Requested pass not found", a list holding a default key of
pass 1 is not fatal. -/
theorem C17_fatal_iff_nothing_in_filter_witness :
    ReadParamFromOADB pass1Cuts (oadbOf [runKey 2 "a"]) 5 1
      = Except.error Fatal.passNotFound ∧
    ¬ ∃ e, ReadParamFromOADB pass1Cuts (oadbOf [runKey 2 "a", defaultKey 1 "d"]) 5 1
      = Except.error e :=
  ⟨(C17_fatal_iff_nothing_in_filter pass1Cuts (oadbOf [runKey 2 "a"]) 5 1 [runKey 2 "a"]
      rfl rfl (by decide)).2.1 (by decide),
   fun h => (C17_fatal_iff_nothing_in_filter pass1Cuts
      (oadbOf [runKey 2 "a", defaultKey 1 "d"]) 5 1 [runKey 2 "a", defaultKey 1 "d"]
      rfl rfl (by decide)).1.1 h ⟨defaultKey 1 "d", by simp, by decide⟩⟩

/-- C18: when the stored pass p is non-negative and is the requested pass, every successful
resolution returns the record of a key of pass p and reports resolved pass p: either an
exact match, or (as fallback) a default-for-run key of pass p; the non-default fallback slot
is never filled. -/
theorem C18_resolution_stays_in_pass (cuts : AliMuonTrackCuts F) (oadb : OADB F) (r p : Int)
    (keys : List (OADBKey F)) (res : ReadResult F)
    (hstored : cuts.fPassNumber = p) (hp : 0 ≤ p)
    (hfile : oadb.file cuts.fIsMC = some keys)
    (hres : ReadParamFromOADB cuts oadb r p = Except.ok res) :
    (∃ k ∈ keys, k.currPass = p ∧ res.cuts.fOADBParam = k.container.GetObject r ∧
      LogMsg.paramInfo r p res.cuts.fOADBParam.GetName p ∈ res.log ∧
      ((exactMatch cuts r p k ∧ res = exactResult cuts r p k) ∨
       (isDefaultFor k r = true ∧ res = fallbackResult cuts r p k))) ∧
    (scanKeys cuts.fPassNumber r p keys ScanVars.init).lastMatchParams = none := by
  have hpass : ∀ k : OADBKey F, inPassFilter cuts k → k.currPass = p := by
    intro k hk
    by_contra hne
    exact hk ⟨by rw [hstored]; exact hp, by rw [hstored]; exact hne⟩
  constructor
  · by_cases hex : ∃ k ∈ keys, exactMatch cuts r p k
    · obtain ⟨pre, k, post, hl, hk, hpre⟩ := exists_first_split (exactMatch cuts r p) keys hex
      have h1 := read_exact cuts oadb r p pre k post (Or.inl hp) (hl ▸ hfile) hpre hk
      rw [h1] at hres
      have hr : res = exactResult cuts r p k := (Except.ok.inj hres).symm
      refine ⟨k, by simp [hl], hk.2.2, by rw [hr]; rfl, ?_, Or.inl ⟨hk, hr⟩⟩
      rw [hr]
      simp [exactResult, hk.2.2]
    · have hno : ∀ k ∈ keys, ¬ exactMatch cuts r p k := fun k hk hx => hex ⟨k, hk, hx⟩
      cases hallow : cuts.fAllowDefaultParams
      · obtain ⟨e, he⟩ := read_fatal_of_noExact cuts oadb r p keys hallow hfile hno
        rw [he] at hres
        cases hres
      · have hg : ¬ (p < 0 ∧ ¬ cuts.fAllowDefaultParams = true) := fun h => h.2 hallow
        by_cases hadm : ∃ k ∈ keys, inPassFilter cuts k
        · have hsent : ∀ k ∈ keys, inPassFilter cuts k → -999 < k.currPass := by
            intro k _ hk
            rw [hpass k hk]
            linarith
          have hnd : ¬ ∃ k ∈ keys, inPassFilter cuts k ∧ isDefaultFor k r = false := by
            rintro ⟨k, hk, ha, hd⟩
            exact hno k hk ⟨ha, hd, hpass k ha⟩
          obtain ⟨pre, k, post, hfh, h1⟩ :=
            (read_fallback cuts oadb r p keys hallow hfile hno hsent).2 hnd hadm
          obtain ⟨hmem, ⟨hka, hkd⟩, -⟩ := firstHighest_max _ keys pre k post hfh
          rw [h1] at hres
          have hr : res = fallbackResult cuts r p k := (Except.ok.inj hres).symm
          refine ⟨k, hmem, hpass k hka, by rw [hr]; rfl, ?_, Or.inr ⟨hkd, hr⟩⟩
          rw [hr]
          simp [fallbackResult, hpass k hka]
        · rw [read_none_in_filter cuts oadb r p keys hg hfile hadm] at hres
          cases hres
  · have h := lastMatch_stays_none cuts r (by rw [hstored]; exact hp) keys ScanVars.init rfl
    rw [hstored] at h
    rw [hstored]
    exact h

/-- Witness of C18: pass 1 stored and requested, default parameters allowed; the only key of
pass 1 is a default one and is returned with resolved pass 1. -/
theorem C18_resolution_stays_in_pass_witness :
    (∃ k ∈ [runKey 2 "a", defaultKey 1 "d"], k.currPass = 1 ∧
      (fallbackResult pass1Cuts 5 1 (defaultKey 1 "d")).cuts.fOADBParam
        = k.container.GetObject 5 ∧
      LogMsg.paramInfo 5 1
          (fallbackResult pass1Cuts 5 1 (defaultKey 1 "d")).cuts.fOADBParam.GetName 1
        ∈ (fallbackResult pass1Cuts 5 1 (defaultKey 1 "d")).log ∧
      ((exactMatch pass1Cuts 5 1 k ∧
          fallbackResult pass1Cuts 5 1 (defaultKey 1 "d") = exactResult pass1Cuts 5 1 k) ∨
       (isDefaultFor k 5 = true ∧
          fallbackResult pass1Cuts 5 1 (defaultKey 1 "d") = fallbackResult pass1Cuts 5 1 k))) ∧
    (scanKeys pass1Cuts.fPassNumber 5 1 [runKey 2 "a", defaultKey 1 "d"]
      ScanVars.init).lastMatchParams = none :=
  C18_resolution_stays_in_pass pass1Cuts (oadbOf [runKey 2 "a", defaultKey 1 "d"]) 5 1
    [runKey 2 "a", defaultKey 1 "d"] (fallbackResult pass1Cuts 5 1 (defaultKey 1 "d"))
    rfl (by decide) rfl rfl

end Resolution3

/-! ## Selection mask: C11, C13, C14, C20 -/

section Doubles

variable {F : Type} [LinearOrder F]

@[simp] theorem Dbl.num_lt_num (a b : F) : (Dbl.num a < Dbl.num b) ↔ a < b := Iff.rfl

@[simp] theorem Dbl.num_le_num (a b : F) : (Dbl.num a ≤ Dbl.num b) ↔ a ≤ b := Iff.rfl

@[simp] theorem Dbl.not_nan_lt (b : Dbl F) : ¬ (Dbl.nan < b) := fun h => h

@[simp] theorem Dbl.not_lt_nan (a : Dbl F) : ¬ (a < Dbl.nan) := by
  cases a <;> exact fun h => h

@[simp] theorem Dbl.not_nan_le (b : Dbl F) : ¬ (Dbl.nan ≤ b) := by
  cases b <;> exact fun h => h

@[simp] theorem Dbl.not_le_nan (a : Dbl F) : ¬ (a ≤ Dbl.nan) := fun h => h

theorem Dbl.numbers_of_le (a b : Dbl F) (h : a ≤ b) :
    ∃ x y, a = Dbl.num x ∧ b = Dbl.num y ∧ x ≤ y := by
  cases a with
  | nan => exact absurd h (Dbl.not_nan_le b)
  | num x =>
    cases b with
    | nan => exact absurd h (Dbl.not_le_nan _)
    | num y => exact ⟨x, y, rfl, rfl, h⟩

end Doubles

section Selection2

variable {F : Type} [LinearOrderedField F]

theorem mask_normal_form (sqrt : F → F) (cuts : AliMuonTrackCuts F) (track : AliVParticle F)
    (hm : track.IsMuonTrack = true) :
    GetSelectionMask sqrt cuts track
      = (if -4 < track.Eta ∧ track.Eta < -2.5 then kMuEta else 0) |||
        (if 2 < track.GetThetaAbsDeg ∧ track.GetThetaAbsDeg < 10 then kMuThetaAbs else 0) |||
        matchBits cuts track.GetMatchTrigger track.Pt |||
        (if track.GetChi2perNDFtracker < cuts.fOADBParam.GetChi2NormCut
          then kMuTrackChiSquare else 0) |||
        (if GetAverageMomentum cuts track * (GetCorrectedDCA cuts track).Mag sqrt
              < pdcaThreshold sqrt cuts (sigmaPdcaOf cuts track) track.P
          then kMuPdca else 0) := by
  simp only [GetSelectionMask, hm, not_true_eq_false, if_false, matchLoop_eq_or,
    pdcaThreshold, sigmaPdcaOf, pResolutionEffect, slopeResolutionEffect, gt_iff_lt]
  split_ifs <;> simp

theorem mask_bits (sqrt : F → F) (cuts : AliMuonTrackCuts F) (track : AliVParticle F)
    (hm : track.IsMuonTrack = true) :
    (GetSelectionMask sqrt cuts track &&& kMuEta ≠ 0 ↔ -4 < track.Eta ∧ track.Eta < -2.5) ∧
    (GetSelectionMask sqrt cuts track &&& kMuThetaAbs ≠ 0 ↔
      2 < track.GetThetaAbsDeg ∧ track.GetThetaAbsDeg < 10) ∧
    (GetSelectionMask sqrt cuts track &&& kMuTrackChiSquare ≠ 0 ↔
      track.GetChi2perNDFtracker < cuts.fOADBParam.GetChi2NormCut) ∧
    (GetSelectionMask sqrt cuts track &&& kMuPdca ≠ 0 ↔
      GetAverageMomentum cuts track * (GetCorrectedDCA cuts track).Mag sqrt
        < pdcaThreshold sqrt cuts (sigmaPdcaOf cuts track) track.P) ∧
    GetSelectionMask sqrt cuts track &&& kMuMatchApt
      = matchBits cuts track.GetMatchTrigger track.Pt &&& kMuMatchApt ∧
    GetSelectionMask sqrt cuts track &&& kMuMatchLpt
      = matchBits cuts track.GetMatchTrigger track.Pt &&& kMuMatchLpt ∧
    GetSelectionMask sqrt cuts track &&& kMuMatchHpt
      = matchBits cuts track.GetMatchTrigger track.Pt &&& kMuMatchHpt := by
  rw [mask_normal_form sqrt cuts track hm]
  rcases matchBits_cases cuts track.GetMatchTrigger track.Pt with h | h | h | h <;>
    rw [h] <;> split_ifs <;>
    simp [*, kMuEta, kMuThetaAbs, kMuPdca, kMuMatchApt, kMuMatchLpt,
      kMuMatchHpt, kMuTrackChiSquare] <;> decide

theorem matchBits_levels (cuts : AliMuonTrackCuts F) (matchTrig : Int) (pt : Dbl F) :
    (matchBits cuts matchTrig pt &&& kMuMatchApt ≠ 0 ↔
      1 ≤ matchTrig ∧
        (cuts.fSharpPtCut = true → ¬ pt < cuts.fOADBParam.GetSharpPtCut 0)) ∧
    (matchBits cuts matchTrig pt &&& kMuMatchLpt ≠ 0 ↔
      2 ≤ matchTrig ∧
        (cuts.fSharpPtCut = true →
          ¬ pt < cuts.fOADBParam.GetSharpPtCut 0 ∧ ¬ pt < cuts.fOADBParam.GetSharpPtCut 1)) ∧
    (matchBits cuts matchTrig pt &&& kMuMatchHpt ≠ 0 ↔
      3 ≤ matchTrig ∧
        (cuts.fSharpPtCut = true →
          ¬ pt < cuts.fOADBParam.GetSharpPtCut 0 ∧ ¬ pt < cuts.fOADBParam.GetSharpPtCut 1 ∧
          ¬ pt < cuts.fOADBParam.GetSharpPtCut 2)) := by
  have a1 : (0 &&& 8 : Nat) = 0 := by decide
  have a2 : (0 &&& 16 : Nat) = 0 := by decide
  have a3 : (0 &&& 32 : Nat) = 0 := by decide
  have b1 : (8 &&& 8 : Nat) = 8 := by decide
  have b2 : (8 &&& 16 : Nat) = 0 := by decide
  have b3 : (8 &&& 32 : Nat) = 0 := by decide
  have c1 : (24 &&& 8 : Nat) = 8 := by decide
  have c2 : (24 &&& 16 : Nat) = 16 := by decide
  have c3 : (24 &&& 32 : Nat) = 0 := by decide
  have d1 : (56 &&& 8 : Nat) = 8 := by decide
  have d2 : (56 &&& 16 : Nat) = 16 := by decide
  have d3 : (56 &&& 32 : Nat) = 32 := by decide
  have e1 : (0 ||| 8 : Nat) = 8 := by decide
  have e2 : (8 ||| 16 : Nat) = 24 := by decide
  have e3 : (24 ||| 32 : Nat) = 56 := by decide
  simp only [matchBits, matchLoop, kMuMatchApt, kMuMatchLpt, kMuMatchHpt, e1, e2, e3]
  split_ifs with h1 h2 h3 h4 h5 h6 <;>
    simp only [a1, a2, a3, b1, b2, b3, c1, c2, c3, d1, d2, d3] <;>
    simp_all <;> (try omega)

theorem pdca_code_iff_spec (sqrt : F → F) (cuts : AliMuonTrackCuts F) (track : AliVParticle F) :
    GetAverageMomentum cuts track * (GetCorrectedDCA cuts track).Mag sqrt
        < pdcaThreshold sqrt cuts (sigmaPdcaOf cuts track) track.P ↔
      pdcaSpec sqrt cuts.fOADBParam track := by
  simp only [pdcaSpec, GetAverageMomentum, GetCorrectedDCA, TVector3.Mag, TVector3.sub,
    pdcaThreshold, sigmaPdcaOf, pResolutionEffect, slopeResolutionEffect, IsThetaAbs23,
    decide_eq_true_eq, pow_two]
  cases track.IsAODTrack <;> simp

theorem ladder_bits (sqrt : F → F) (cuts : AliMuonTrackCuts F)
    (track : AliVParticle F) (hm : track.IsMuonTrack = true) :
    (GetSelectionMask sqrt cuts track &&& kMuMatchApt ≠ 0 ↔
      1 ≤ track.GetMatchTrigger ∧
        (cuts.fSharpPtCut = true → ¬ track.Pt < cuts.fOADBParam.GetSharpPtCut 0)) ∧
    (GetSelectionMask sqrt cuts track &&& kMuMatchLpt ≠ 0 ↔
      2 ≤ track.GetMatchTrigger ∧
        (cuts.fSharpPtCut = true →
          ¬ track.Pt < cuts.fOADBParam.GetSharpPtCut 0 ∧
          ¬ track.Pt < cuts.fOADBParam.GetSharpPtCut 1)) ∧
    (GetSelectionMask sqrt cuts track &&& kMuMatchHpt ≠ 0 ↔
      3 ≤ track.GetMatchTrigger ∧
        (cuts.fSharpPtCut = true →
          ¬ track.Pt < cuts.fOADBParam.GetSharpPtCut 0 ∧
          ¬ track.Pt < cuts.fOADBParam.GetSharpPtCut 1 ∧
          ¬ track.Pt < cuts.fOADBParam.GetSharpPtCut 2)) := by
  obtain ⟨-, -, -, -, m1, m2, m3⟩ := mask_bits sqrt cuts track hm
  rw [m1, m2, m3]
  exact matchBits_levels cuts track.GetMatchTrigger track.Pt

theorem trackPtCut_iff (cuts : AliMuonTrackCuts F) (track : AliVParticle F) (L : Int) :
    TrackPtCutMatchTrigClass cuts track L = true ↔
      L ≤ track.GetMatchTrigger ∧
        (cuts.fSharpPtCut = true → cuts.fOADBParam.GetSharpPtCut (L - 1) ≤ track.Pt) := by
  unfold TrackPtCutMatchTrigClass
  cases hs : cuts.fSharpPtCut <;> simp

end Selection2

section Selection3

variable {F : Type} [LinearOrderedField F]

/-- C11 (amended): for a muon track the bit of level i (MatchApt, MatchLpt, MatchHpt for
i = 1, 2, 3) is set exactly when the matched trigger level is at least i and, with the sharp
pt cut enabled, the test `pt < sharpPtCut[j-1]` fails for every level j up to i; when pt and
the thresholds are numbers this is pt >= sharpPtCut[j-1] for every such j, and a NaN pt or
threshold passes; with the sharp pt cut disabled the bit of level i is set exactly when the
trigger level is at least i, and with it enabled and pt < sharpPtCut[0] none of the three
bits is set. -/
theorem C11_ladder_bits_exact (sqrt : F → F) (cuts : AliMuonTrackCuts F)
    (track : AliVParticle F) (hm : track.IsMuonTrack = true) :
    ((GetSelectionMask sqrt cuts track &&& kMuMatchApt ≠ 0 ↔
      1 ≤ track.GetMatchTrigger ∧
        (cuts.fSharpPtCut = true → ¬ track.Pt < cuts.fOADBParam.GetSharpPtCut 0)) ∧
    (GetSelectionMask sqrt cuts track &&& kMuMatchLpt ≠ 0 ↔
      2 ≤ track.GetMatchTrigger ∧
        (cuts.fSharpPtCut = true →
          ¬ track.Pt < cuts.fOADBParam.GetSharpPtCut 0 ∧
          ¬ track.Pt < cuts.fOADBParam.GetSharpPtCut 1)) ∧
    (GetSelectionMask sqrt cuts track &&& kMuMatchHpt ≠ 0 ↔
      3 ≤ track.GetMatchTrigger ∧
        (cuts.fSharpPtCut = true →
          ¬ track.Pt < cuts.fOADBParam.GetSharpPtCut 0 ∧
          ¬ track.Pt < cuts.fOADBParam.GetSharpPtCut 1 ∧
          ¬ track.Pt < cuts.fOADBParam.GetSharpPtCut 2))) ∧
    (∀ x c0 c1 c2 : F, track.Pt = Dbl.num x →
      cuts.fOADBParam.GetSharpPtCut 0 = Dbl.num c0 →
      cuts.fOADBParam.GetSharpPtCut 1 = Dbl.num c1 →
      cuts.fOADBParam.GetSharpPtCut 2 = Dbl.num c2 →
      (GetSelectionMask sqrt cuts track &&& kMuMatchApt ≠ 0 ↔
        1 ≤ track.GetMatchTrigger ∧
          (cuts.fSharpPtCut = true → cuts.fOADBParam.GetSharpPtCut 0 ≤ track.Pt)) ∧
      (GetSelectionMask sqrt cuts track &&& kMuMatchLpt ≠ 0 ↔
        2 ≤ track.GetMatchTrigger ∧
          (cuts.fSharpPtCut = true →
            cuts.fOADBParam.GetSharpPtCut 0 ≤ track.Pt ∧
            cuts.fOADBParam.GetSharpPtCut 1 ≤ track.Pt)) ∧
      (GetSelectionMask sqrt cuts track &&& kMuMatchHpt ≠ 0 ↔
        3 ≤ track.GetMatchTrigger ∧
          (cuts.fSharpPtCut = true →
            cuts.fOADBParam.GetSharpPtCut 0 ≤ track.Pt ∧
            cuts.fOADBParam.GetSharpPtCut 1 ≤ track.Pt ∧
            cuts.fOADBParam.GetSharpPtCut 2 ≤ track.Pt))) ∧
    (cuts.fSharpPtCut = false →
      (GetSelectionMask sqrt cuts track &&& kMuMatchApt ≠ 0 ↔ 1 ≤ track.GetMatchTrigger) ∧
      (GetSelectionMask sqrt cuts track &&& kMuMatchLpt ≠ 0 ↔ 2 ≤ track.GetMatchTrigger) ∧
      (GetSelectionMask sqrt cuts track &&& kMuMatchHpt ≠ 0 ↔ 3 ≤ track.GetMatchTrigger)) ∧
    (cuts.fSharpPtCut = true → track.Pt < cuts.fOADBParam.GetSharpPtCut 0 →
      GetSelectionMask sqrt cuts track &&& kMuMatchApt = 0 ∧
      GetSelectionMask sqrt cuts track &&& kMuMatchLpt = 0 ∧
      GetSelectionMask sqrt cuts track &&& kMuMatchHpt = 0) := by
  obtain ⟨l1, l2, l3⟩ := ladder_bits sqrt cuts track hm
  refine ⟨⟨l1, l2, l3⟩, ?_, ?_, ?_⟩
  · intro x c0 c1 c2 hx h0 h1 h2
    rw [l1, l2, l3, hx, h0, h1, h2]
    simp only [Dbl.num_lt_num, Dbl.num_le_num, not_lt]
    exact ⟨trivial, trivial, trivial⟩
  · intro hs
    rw [l1, l2, l3]
    simp [hs]
  · intro hs hlt
    refine ⟨?_, ?_, ?_⟩
    · by_contra hc
      exact (l1.1 hc).2 hs hlt
    · by_contra hc
      exact ((l2.1 hc).2 hs).1 hlt
    · by_contra hc
      exact ((l3.1 hc).2 hs).1 hlt

/-- Witness of C11: pt 3/10 below the first threshold 1/2 with the sharp pt cut enabled and
trigger level 1: none of the three match bits is set. -/
theorem C11_ladder_bits_exact_witness :
    GetSelectionMask qsqrt (sharpCuts ℚ) (softMuon ℚ) &&& kMuMatchApt = 0 ∧
    GetSelectionMask qsqrt (sharpCuts ℚ) (softMuon ℚ) &&& kMuMatchLpt = 0 ∧
    GetSelectionMask qsqrt (sharpCuts ℚ) (softMuon ℚ) &&& kMuMatchHpt = 0 :=
  (C11_ladder_bits_exact qsqrt (sharpCuts ℚ) (softMuon ℚ) rfl).2.2.2 rfl
    (by norm_num [sharpCuts, softMuon, cutsOver, muonOver, paramOver, ctorNamed, ctorDefault,
      SetDefaultFilterMask, SetFilterMask, AliOADBMuonTrackCutsParam.GetSharpPtCut])

/-- Counterexample to C11 as stated: a muon at trigger level 3 whose pt is NaN, with the
sharp pt cut enabled: `pt < sharpPtCut` is false at every level, so the three match bits
are set, while pt >= sharpPtCut[0] is false. -/
theorem C11_counterexample :
    (nanMuon ℚ).IsMuonTrack = true ∧ (sharpCuts ℚ).fSharpPtCut = true ∧
    GetSelectionMask qsqrt (sharpCuts ℚ) (nanMuon ℚ) &&& kMuMatchApt ≠ 0 ∧
    GetSelectionMask qsqrt (sharpCuts ℚ) (nanMuon ℚ) &&& kMuMatchLpt ≠ 0 ∧
    GetSelectionMask qsqrt (sharpCuts ℚ) (nanMuon ℚ) &&& kMuMatchHpt ≠ 0 ∧
    ¬ ((sharpCuts ℚ).fOADBParam.GetSharpPtCut 0 ≤ (nanMuon ℚ).Pt) :=
  have hpt : (nanMuon ℚ).Pt = Dbl.nan := rfl
  ⟨rfl, rfl,
   (ladder_bits qsqrt (sharpCuts ℚ) (nanMuon ℚ) rfl).1.2
     ⟨by show (1 : Int) ≤ 3; decide, fun _ => by rw [hpt]; exact Dbl.not_nan_lt _⟩,
   (ladder_bits qsqrt (sharpCuts ℚ) (nanMuon ℚ) rfl).2.1.2
     ⟨by show (2 : Int) ≤ 3; decide,
      fun _ => by rw [hpt]; exact ⟨Dbl.not_nan_lt _, Dbl.not_nan_lt _⟩⟩,
   (ladder_bits qsqrt (sharpCuts ℚ) (nanMuon ℚ) rfl).2.2.2
     ⟨by show (3 : Int) ≤ 3; decide,
      fun _ => by rw [hpt]; exact ⟨Dbl.not_nan_lt _, Dbl.not_nan_lt _, Dbl.not_nan_lt _⟩⟩,
   by rw [hpt]; exact Dbl.not_le_nan _⟩

/-- C13: for a muon track the Eta bit is set exactly when -4 < eta < -2.5, the ThetaAbs bit
exactly when 2 < absorber angle < 10 and the TrackChiSquare bit exactly when the reduced
chi-square is strictly below `chi2NormCut`; at the boundary values the bit is unset; each
bit is the same for any two muon tracks (under any parameters) that agree on the observable
it tests (and on `chi2NormCut` for the chi-square bit). -/
theorem C13_window_bits_strict (sqrt : F → F) (cuts : AliMuonTrackCuts F)
    (track : AliVParticle F) (hm : track.IsMuonTrack = true) :
    (GetSelectionMask sqrt cuts track &&& kMuEta ≠ 0 ↔ -4 < track.Eta ∧ track.Eta < -2.5) ∧
    (GetSelectionMask sqrt cuts track &&& kMuThetaAbs ≠ 0 ↔
      2 < track.GetThetaAbsDeg ∧ track.GetThetaAbsDeg < 10) ∧
    (GetSelectionMask sqrt cuts track &&& kMuTrackChiSquare ≠ 0 ↔
      track.GetChi2perNDFtracker < cuts.fOADBParam.GetChi2NormCut) ∧
    (track.Eta = -4 ∨ track.Eta = -2.5 → GetSelectionMask sqrt cuts track &&& kMuEta = 0) ∧
    (track.GetThetaAbsDeg = 2 ∨ track.GetThetaAbsDeg = 10 →
      GetSelectionMask sqrt cuts track &&& kMuThetaAbs = 0) ∧
    (track.GetChi2perNDFtracker = cuts.fOADBParam.GetChi2NormCut →
      GetSelectionMask sqrt cuts track &&& kMuTrackChiSquare = 0) ∧
    (∀ (sqrt2 : F → F) (cuts2 : AliMuonTrackCuts F) (track2 : AliVParticle F),
      track2.IsMuonTrack = true →
      (track2.Eta = track.Eta →
        (GetSelectionMask sqrt2 cuts2 track2 &&& kMuEta ≠ 0 ↔
          GetSelectionMask sqrt cuts track &&& kMuEta ≠ 0)) ∧
      (track2.GetThetaAbsDeg = track.GetThetaAbsDeg →
        (GetSelectionMask sqrt2 cuts2 track2 &&& kMuThetaAbs ≠ 0 ↔
          GetSelectionMask sqrt cuts track &&& kMuThetaAbs ≠ 0)) ∧
      (track2.GetChi2perNDFtracker = track.GetChi2perNDFtracker →
        cuts2.fOADBParam.GetChi2NormCut = cuts.fOADBParam.GetChi2NormCut →
        (GetSelectionMask sqrt2 cuts2 track2 &&& kMuTrackChiSquare ≠ 0 ↔
          GetSelectionMask sqrt cuts track &&& kMuTrackChiSquare ≠ 0))) := by
  obtain ⟨b1, b2, b3, -, -, -, -⟩ := mask_bits sqrt cuts track hm
  refine ⟨b1, b2, b3, ?_, ?_, ?_, ?_⟩
  · intro h
    by_contra hc
    obtain ⟨h1, h2⟩ := b1.1 hc
    rcases h with h | h
    · rw [h] at h1; exact lt_irrefl _ h1
    · rw [h] at h2; exact lt_irrefl _ h2
  · intro h
    by_contra hc
    obtain ⟨h1, h2⟩ := b2.1 hc
    rcases h with h | h
    · rw [h] at h1; exact lt_irrefl _ h1
    · rw [h] at h2; exact lt_irrefl _ h2
  · intro h
    by_contra hc
    have h1 := b3.1 hc
    rw [h] at h1
    exact lt_irrefl _ h1
  · intro sqrt2 cuts2 track2 hm2
    obtain ⟨c1, c2, c3, -, -, -, -⟩ := mask_bits sqrt2 cuts2 track2 hm2
    refine ⟨?_, ?_, ?_⟩
    · intro he
      rw [c1, b1, he]
    · intro he
      rw [c2, b2, he]
    · intro he hcut
      rw [c3, b3, he, hcut]

/-- Witness of C13: the muon of the scenarios has the three bits set, and the same muon at
eta = -2.5 has the Eta bit unset. -/
theorem C13_window_bits_strict_witness :
    GetSelectionMask qsqrt (cutsOver ℚ) (muonOver ℚ) &&& kMuEta ≠ 0 ∧
    GetSelectionMask qsqrt (cutsOver ℚ) (muonOver ℚ) &&& kMuThetaAbs ≠ 0 ∧
    GetSelectionMask qsqrt (cutsOver ℚ) (muonOver ℚ) &&& kMuTrackChiSquare ≠ 0 ∧
    GetSelectionMask qsqrt (cutsOver ℚ) { muonOver ℚ with Eta := -2.5 } &&& kMuEta = 0 :=
  ⟨(C13_window_bits_strict qsqrt (cutsOver ℚ) (muonOver ℚ) rfl).1.2
      (by norm_num [muonOver]),
   (C13_window_bits_strict qsqrt (cutsOver ℚ) (muonOver ℚ) rfl).2.1.2
      (by norm_num [muonOver]),
   (C13_window_bits_strict qsqrt (cutsOver ℚ) (muonOver ℚ) rfl).2.2.1.2
      (by norm_num [muonOver, cutsOver, paramOver, ctorNamed, ctorDefault,
        SetDefaultFilterMask, SetFilterMask]),
   (C13_window_bits_strict qsqrt (cutsOver ℚ) { muonOver ℚ with Eta := -2.5 } rfl).2.2.2.1
      (Or.inr rfl)⟩

end Selection3

section Selection4

variable {F : Type} [LinearOrderedField F]

/-- C20 (amended): for a muon track whose pt is a number when the sharp pt cut is enabled,
and parameters whose three sharp pt thresholds are numbers in non-decreasing order,
`TrackPtCutMatchTrigClass` at level L in {1, 2, 3} is true exactly when the level-L match
bit is set in the selection mask, both being: trigger level at least L and, with the sharp
pt cut enabled, pt >= sharpPtCut[L-1]; with thresholds out of order the two can differ
(thresholds 2, 1, 3/2, pt 3/2, trigger level 2, L = 2). -/
theorem C20_trigger_class_agrees_with_ladder (sqrt : F → F) (cuts : AliMuonTrackCuts F)
    (track : AliVParticle F) (hm : track.IsMuonTrack = true)
    (hpt : cuts.fSharpPtCut = true → ∃ x, track.Pt = Dbl.num x)
    (h01 : cuts.fOADBParam.GetSharpPtCut 0 ≤ cuts.fOADBParam.GetSharpPtCut 1)
    (h12 : cuts.fOADBParam.GetSharpPtCut 1 ≤ cuts.fOADBParam.GetSharpPtCut 2) :
    (∀ L : Int, L = 1 ∨ L = 2 ∨ L = 3 →
      (TrackPtCutMatchTrigClass cuts track L = true ↔
        GetSelectionMask sqrt cuts track &&& cutLevel (L - 1) ≠ 0) ∧
      (TrackPtCutMatchTrigClass cuts track L = true ↔
        L ≤ track.GetMatchTrigger ∧
          (cuts.fSharpPtCut = true → cuts.fOADBParam.GetSharpPtCut (L - 1) ≤ track.Pt))) ∧
    ∃ (cuts2 : AliMuonTrackCuts F) (track2 : AliVParticle F),
      track2.IsMuonTrack = true ∧
      (∃ x, track2.Pt = Dbl.num x) ∧
      TrackPtCutMatchTrigClass cuts2 track2 2 = true ∧
      GetSelectionMask sqrt cuts2 track2 &&& cutLevel (2 - 1) = 0 := by
  obtain ⟨l1, l2, l3⟩ := ladder_bits sqrt cuts track hm
  obtain ⟨c0, c1, e0, e1, le01⟩ := Dbl.numbers_of_le _ _ h01
  obtain ⟨c1b, c2, e1b, e2, le12⟩ := Dbl.numbers_of_le _ _ h12
  have hc : c1b = c1 := by
    have h := e1b.symm.trans e1
    injection h
  subst hc
  constructor
  · intro L hL
    refine ⟨?_, trackPtCut_iff cuts track L⟩
    rw [trackPtCut_iff]
    cases hs : cuts.fSharpPtCut
    · rcases hL with rfl | rfl | rfl
      · have e : cutLevel (1 - 1) = kMuMatchApt := by decide
        rw [e, l1]; simp [hs]
      · have e : cutLevel (2 - 1) = kMuMatchLpt := by decide
        rw [e, l2]; simp [hs]
      · have e : cutLevel (3 - 1) = kMuMatchHpt := by decide
        rw [e, l3]; simp [hs]
    · obtain ⟨x, hx⟩ := hpt hs
      rcases hL with rfl | rfl | rfl
      · have e : cutLevel (1 - 1) = kMuMatchApt := by decide
        rw [e, l1, show ((1 : Int) - 1) = 0 from rfl, hx, e0]
        simp [hs]
      · have e : cutLevel (2 - 1) = kMuMatchLpt := by decide
        rw [e, l2, show ((2 : Int) - 1) = 1 from rfl, hx, e0, e1b]
        simp only [hs, Dbl.num_lt_num, Dbl.num_le_num, not_lt, true_implies]
        constructor
        · rintro ⟨h1, h2⟩
          exact ⟨h1, le_trans le01 h2, h2⟩
        · rintro ⟨h1, -, h2⟩
          exact ⟨h1, h2⟩
      · have e : cutLevel (3 - 1) = kMuMatchHpt := by decide
        rw [e, l3, show ((3 : Int) - 1) = 2 from rfl, hx, e0, e1b, e2]
        simp only [hs, Dbl.num_lt_num, Dbl.num_le_num, not_lt, true_implies]
        constructor
        · rintro ⟨h1, h2⟩
          exact ⟨h1, le_trans le01 (le_trans le12 h2), le_trans le12 h2, h2⟩
        · rintro ⟨h1, -, -, h2⟩
          exact ⟨h1, h2⟩
  · refine ⟨unorderedCuts F, lowPtMuon F, rfl, ⟨3 / 2, rfl⟩, ?_, ?_⟩
    · rw [trackPtCut_iff]
      refine ⟨le_refl (2 : Int), fun _ => ?_⟩
      norm_num [unorderedCuts, unorderedParam, lowPtMuon, muonOver, paramOver, ctorNamed,
        ctorDefault, SetDefaultFilterMask, SetFilterMask,
        AliOADBMuonTrackCutsParam.GetSharpPtCut]
    · have e : cutLevel (2 - 1) = kMuMatchLpt := by decide
      rw [e]
      by_contra hc
      have h := (((ladder_bits sqrt (unorderedCuts F) (lowPtMuon F) rfl).2.1.1 hc).2 rfl).1
      revert h
      norm_num [unorderedCuts, unorderedParam, lowPtMuon, muonOver, paramOver,
        ctorNamed, ctorDefault, SetDefaultFilterMask, SetFilterMask,
        AliOADBMuonTrackCutsParam.GetSharpPtCut]

/-- Witness of C20: the sharp pt cut enabled, ordered thresholds 1/2, 1, 3/2 and a muon of
pt 2 at trigger level 3: the class test at L = 3 is true and the MatchHpt bit is set. -/
theorem C20_trigger_class_agrees_with_ladder_witness :
    (sharpCuts ℚ).fSharpPtCut = true ∧
    TrackPtCutMatchTrigClass (sharpCuts ℚ) (muonOver ℚ) 3 = true ∧
    GetSelectionMask qsqrt (sharpCuts ℚ) (muonOver ℚ) &&& cutLevel (3 - 1) ≠ 0 :=
  have h := (C20_trigger_class_agrees_with_ladder qsqrt (sharpCuts ℚ) (muonOver ℚ) rfl
    (fun _ => ⟨2, rfl⟩)
    (by norm_num [sharpCuts, cutsOver, paramOver, ctorNamed, ctorDefault,
      SetDefaultFilterMask, SetFilterMask, AliOADBMuonTrackCutsParam.GetSharpPtCut])
    (by norm_num [sharpCuts, cutsOver, paramOver, ctorNamed, ctorDefault,
      SetDefaultFilterMask, SetFilterMask, AliOADBMuonTrackCutsParam.GetSharpPtCut])).1 3
    (Or.inr (Or.inr rfl))
  have ht : TrackPtCutMatchTrigClass (sharpCuts ℚ) (muonOver ℚ) 3 = true :=
    h.2.2 ⟨le_refl (3 : Int), fun _ => by
      norm_num [sharpCuts, cutsOver, muonOver, paramOver, ctorNamed, ctorDefault,
        SetDefaultFilterMask, SetFilterMask, AliOADBMuonTrackCutsParam.GetSharpPtCut]⟩
  ⟨rfl, ht, h.1.1 ht⟩

/-- Counterexample to C20 as stated: ordered thresholds 1/2, 1, 3/2, the sharp pt cut
enabled and a muon at trigger level 3 whose pt is NaN: `pt >= sharpPtCut[2]` is false, so
the class test at L = 3 is false, while `pt < sharpPtCut` is false at every level, so the
MatchHpt bit is set. -/
theorem C20_counterexample :
    (nanMuon ℚ).IsMuonTrack = true ∧
    (sharpCuts ℚ).fOADBParam.GetSharpPtCut 0 ≤ (sharpCuts ℚ).fOADBParam.GetSharpPtCut 1 ∧
    (sharpCuts ℚ).fOADBParam.GetSharpPtCut 1 ≤ (sharpCuts ℚ).fOADBParam.GetSharpPtCut 2 ∧
    TrackPtCutMatchTrigClass (sharpCuts ℚ) (nanMuon ℚ) 3 = false ∧
    GetSelectionMask qsqrt (sharpCuts ℚ) (nanMuon ℚ) &&& cutLevel (3 - 1) ≠ 0 :=
  have hpt : (nanMuon ℚ).Pt = Dbl.nan := rfl
  ⟨rfl,
   by norm_num [sharpCuts, cutsOver, paramOver, ctorNamed, ctorDefault,
      SetDefaultFilterMask, SetFilterMask, AliOADBMuonTrackCutsParam.GetSharpPtCut],
   by norm_num [sharpCuts, cutsOver, paramOver, ctorNamed, ctorDefault,
      SetDefaultFilterMask, SetFilterMask, AliOADBMuonTrackCutsParam.GetSharpPtCut],
   Bool.eq_false_iff.2 (fun ht =>
     Dbl.not_le_nan _ (((trackPtCut_iff (sharpCuts ℚ) (nanMuon ℚ) 3).1 ht).2 rfl)),
   by
    have e : cutLevel (3 - 1) = kMuMatchHpt := by decide
    rw [e]
    exact (ladder_bits qsqrt (sharpCuts ℚ) (nanMuon ℚ) rfl).2.2.2
      ⟨by show (3 : Int) ≤ 3; decide,
       fun _ => by rw [hpt]; exact ⟨Dbl.not_nan_lt _, Dbl.not_nan_lt _, Dbl.not_nan_lt _⟩⟩⟩

end Selection4

/-! ## The Pdca cut over the reals: C12, C19, and the scenarios of C14 -/

section RealArithmetic

theorem pResolutionEffect_eq {F : Type} [LinearOrderedField F] (cuts : AliMuonTrackCuts F)
    (sigmaPdca pTot : F)
    (hne : cuts.fOADBParam.GetNSigmaPdca * cuts.fOADBParam.GetRelPResolution * pTot ≠ -1) :
    pResolutionEffect cuts sigmaPdca pTot
      = sigmaPdca *
          (1 + cuts.fOADBParam.GetNSigmaPdca * cuts.fOADBParam.GetRelPResolution * pTot) := by
  have h1 : 1 + cuts.fOADBParam.GetNSigmaPdca * cuts.fOADBParam.GetRelPResolution * pTot ≠ 0 := by
    intro h
    apply hne
    linarith
  have h2 : 1 - cuts.fOADBParam.GetNSigmaPdca * cuts.fOADBParam.GetRelPResolution * pTot /
        (1 + cuts.fOADBParam.GetNSigmaPdca * cuts.fOADBParam.GetRelPResolution * pTot)
      = 1 / (1 + cuts.fOADBParam.GetNSigmaPdca * cuts.fOADBParam.GetRelPResolution * pTot) := by
    field_simp
  simp only [pResolutionEffect]
  rw [h2]
  field_simp

theorem pdcaSpec_scenario (pt : Dbl ℝ) (matchTrig : Int) :
    pdcaSpec Real.sqrt (paramOver ℝ "init")
      { muonOver ℝ with Pt := pt, GetMatchTrigger := matchTrig } := by
  have h25 : Real.sqrt 25 = 5 := by
    rw [show (25 : ℝ) = 5 * 5 by norm_num]
    exact Real.sqrt_mul_self (by norm_num)
  have h7 : (7 : ℝ) ≤ Real.sqrt (124029601 / 40000) := by
    rw [Real.le_sqrt' (by norm_num)]
    norm_num
  simp only [pdcaSpec, muonOver, paramOver]
  norm_num
  rw [h25, ← Real.sqrt_div (by norm_num)]
  linarith

theorem pdcaSpec_muonOver_real :
    pdcaSpec Real.sqrt (cutsOver ℝ).fOADBParam (muonOver ℝ) :=
  pdcaSpec_scenario (Dbl.num 2) 3

/-- C12: over the reals with the real square root, the Pdca bit of a muon track is set
exactly when the condition of the specification holds (norm of DCA - vertex - meanDCA,
mean momentum by reconstruction stage and regime, momentum-resolution and slope effects,
strict comparison with nSigmaPdca times the quadratic sum); the regime is near-axial exactly
when the absorber angle is below 3 degrees, an angle of exactly 3 being off-axial, and the
same regime selects sigmaPdca and meanPCorr. -/
theorem C12_pdca_bit_formula (cuts : AliMuonTrackCuts ℝ) (track : AliVParticle ℝ)
    (hm : track.IsMuonTrack = true) :
    (GetSelectionMask Real.sqrt cuts track &&& kMuPdca ≠ 0 ↔
      pdcaSpec Real.sqrt cuts.fOADBParam track) ∧
    (IsThetaAbs23 track = true ↔ track.GetThetaAbsDeg < 3) ∧
    (track.GetThetaAbsDeg = 3 → IsThetaAbs23 track = false) ∧
    sigmaPdcaOf cuts track
      = (if track.GetThetaAbsDeg < 3 then cuts.fOADBParam.GetSigmaPdca23
         else cuts.fOADBParam.GetSigmaPdca310) := by
  obtain ⟨-, -, -, b4, -, -, -⟩ := mask_bits Real.sqrt cuts track hm
  refine ⟨b4.trans (pdca_code_iff_spec Real.sqrt cuts track), ?_, ?_, ?_⟩
  · simp [IsThetaAbs23]
  · intro h
    simp [IsThetaAbs23, h]
  · simp [sigmaPdcaOf, IsThetaAbs23]

/-- Witness of C12: the muon of the scenarios has p x DCA = 8 x 5 = 40, below the
threshold, and carries the Pdca bit. -/
theorem C12_pdca_bit_formula_witness :
    GetSelectionMask Real.sqrt (cutsOver ℝ) (muonOver ℝ) &&& kMuPdca ≠ 0 :=
  (C12_pdca_bit_formula (cutsOver ℝ) (muonOver ℝ) rfl).1.2 pdcaSpec_muonOver_real

/-- C19: over the reals, the Pdca bit of a muon compares p x DCA with `pdcaThreshold`; when nrp = nSigmaPdca * relPResolution * pTot differs from -1 the
momentum-resolution term sigmaPdca / (1 - nrp / (1 + nrp)) equals sigmaPdca * (1 + nrp);
for non-negative sigmaPdca, nSigmaPdca, relPResolution and slopeResolution the Pdca
threshold is at least nSigmaPdca * sigmaPdca for pTot >= 0 and is non-decreasing in
pTot >= 0. -/
theorem C19_resolution_inflation (cuts : AliMuonTrackCuts ℝ) (sigmaPdca : ℝ) :
    (∀ track : AliVParticle ℝ, track.IsMuonTrack = true →
      (GetSelectionMask Real.sqrt cuts track &&& kMuPdca ≠ 0 ↔
        GetAverageMomentum cuts track * (GetCorrectedDCA cuts track).Mag Real.sqrt
          < pdcaThreshold Real.sqrt cuts (sigmaPdcaOf cuts track) track.P)) ∧
    (∀ pTot : ℝ,
      cuts.fOADBParam.GetNSigmaPdca * cuts.fOADBParam.GetRelPResolution * pTot ≠ -1 →
      pResolutionEffect cuts sigmaPdca pTot
        = sigmaPdca *
            (1 + cuts.fOADBParam.GetNSigmaPdca * cuts.fOADBParam.GetRelPResolution * pTot)) ∧
    (0 ≤ sigmaPdca → 0 ≤ cuts.fOADBParam.GetNSigmaPdca →
      0 ≤ cuts.fOADBParam.GetRelPResolution → 0 ≤ cuts.fOADBParam.GetSlopeResolution →
      (∀ pTot : ℝ, 0 ≤ pTot →
        cuts.fOADBParam.GetNSigmaPdca * sigmaPdca
          ≤ pdcaThreshold Real.sqrt cuts sigmaPdca pTot) ∧
      (∀ p1 p2 : ℝ, 0 ≤ p1 → p1 ≤ p2 →
        pdcaThreshold Real.sqrt cuts sigmaPdca p1
          ≤ pdcaThreshold Real.sqrt cuts sigmaPdca p2)) := by
  refine ⟨fun track hm => (mask_bits Real.sqrt cuts track hm).2.2.2.1,
    fun pTot hne => pResolutionEffect_eq cuts sigmaPdca pTot hne, ?_⟩
  intro hs hN hr hsl
  have hnrp : ∀ p : ℝ, 0 ≤ p →
      0 ≤ cuts.fOADBParam.GetNSigmaPdca * cuts.fOADBParam.GetRelPResolution * p :=
    fun p hp => mul_nonneg (mul_nonneg hN hr) hp
  have hres : ∀ p : ℝ, 0 ≤ p →
      pResolutionEffect cuts sigmaPdca p
        = sigmaPdca *
            (1 + cuts.fOADBParam.GetNSigmaPdca * cuts.fOADBParam.GetRelPResolution * p) := by
    intro p hp
    apply pResolutionEffect_eq
    have := hnrp p hp
    intro h
    linarith
  constructor
  · intro p hp
    have h0 := hnrp p hp
    have hge : sigmaPdca ≤ pResolutionEffect cuts sigmaPdca p := by
      rw [hres p hp]
      nlinarith
    have hpos : 0 ≤ pResolutionEffect cuts sigmaPdca p := le_trans hs hge
    have hsq : pResolutionEffect cuts sigmaPdca p
        ≤ Real.sqrt (pResolutionEffect cuts sigmaPdca p * pResolutionEffect cuts sigmaPdca p +
            slopeResolutionEffect cuts p * slopeResolutionEffect cuts p) := by
      calc pResolutionEffect cuts sigmaPdca p
          = Real.sqrt (pResolutionEffect cuts sigmaPdca p *
              pResolutionEffect cuts sigmaPdca p) := (Real.sqrt_mul_self hpos).symm
        _ ≤ _ := Real.sqrt_le_sqrt (by nlinarith [mul_self_nonneg (slopeResolutionEffect cuts p)])
    unfold pdcaThreshold
    exact mul_le_mul_of_nonneg_left (le_trans hge hsq) hN
  · intro p1 p2 hp1 h12
    have hp2 : 0 ≤ p2 := le_trans hp1 h12
    have ha1 : 0 ≤ pResolutionEffect cuts sigmaPdca p1 := by
      rw [hres p1 hp1]
      exact mul_nonneg hs (by linarith [hnrp p1 hp1])
    have ha : pResolutionEffect cuts sigmaPdca p1 ≤ pResolutionEffect cuts sigmaPdca p2 := by
      rw [hres p1 hp1, hres p2 hp2]
      apply mul_le_mul_of_nonneg_left _ hs
      have := mul_le_mul_of_nonneg_left h12 (mul_nonneg hN hr)
      linarith
    have hb1 : 0 ≤ slopeResolutionEffect cuts p1 := by
      unfold slopeResolutionEffect
      exact mul_nonneg (mul_nonneg (by norm_num) hsl) hp1
    have hb : slopeResolutionEffect cuts p1 ≤ slopeResolutionEffect cuts p2 := by
      unfold slopeResolutionEffect
      exact mul_le_mul_of_nonneg_left h12 (mul_nonneg (by norm_num) hsl)
    unfold pdcaThreshold
    apply mul_le_mul_of_nonneg_left _ hN
    apply Real.sqrt_le_sqrt
    have e1 := mul_self_le_mul_self ha1 ha
    have e2 := mul_self_le_mul_self hb1 hb
    linarith

/-- Witness of C19: the parameters of the scenarios (nSigmaPdca 6, relPResolution and
slopeResolution 1/2000), sigmaPdca 54, momenta 10 and 20. -/
theorem C19_resolution_inflation_witness :
    pResolutionEffect (cutsOver ℝ) 54 10
      = 54 * (1 + (cutsOver ℝ).fOADBParam.GetNSigmaPdca *
          (cutsOver ℝ).fOADBParam.GetRelPResolution * 10) ∧
    (cutsOver ℝ).fOADBParam.GetNSigmaPdca * 54 ≤ pdcaThreshold Real.sqrt (cutsOver ℝ) 54 10 ∧
    pdcaThreshold Real.sqrt (cutsOver ℝ) 54 10 ≤ pdcaThreshold Real.sqrt (cutsOver ℝ) 54 20 :=
  have hN : (0 : ℝ) ≤ (cutsOver ℝ).fOADBParam.GetNSigmaPdca := by
    norm_num [cutsOver, paramOver, ctorNamed, ctorDefault, SetDefaultFilterMask, SetFilterMask]
  have hr : (0 : ℝ) ≤ (cutsOver ℝ).fOADBParam.GetRelPResolution := by
    norm_num [cutsOver, paramOver, ctorNamed, ctorDefault, SetDefaultFilterMask, SetFilterMask]
  have hs : (0 : ℝ) ≤ (cutsOver ℝ).fOADBParam.GetSlopeResolution := by
    norm_num [cutsOver, paramOver, ctorNamed, ctorDefault, SetDefaultFilterMask, SetFilterMask]
  ⟨(C19_resolution_inflation (cutsOver ℝ) 54).2.1 10
      (by norm_num [cutsOver, paramOver, ctorNamed, ctorDefault, SetDefaultFilterMask,
        SetFilterMask]),
   ((C19_resolution_inflation (cutsOver ℝ) 54).2.2 (by norm_num) hN hr hs).1 10 (by norm_num),
   ((C19_resolution_inflation (cutsOver ℝ) 54).2.2 (by norm_num) hN hr hs).2 10 20
      (by norm_num) (by norm_num)⟩

end RealArithmetic

end MuonCuts
